import Mathlib

/-!
# A verification model of the Overture `DataStore` core (`Store.js`)

This file gives a shallow embedding of the record store implemented in
`Store.js` and proves properties of its status state machine, its commit
pipeline and its reconciliation callbacks.

Modelling conventions, fixed once for the whole file:

* The store holds records of a single record type; the two per-type indexes
  `_typeToSkToId` / `_typeToIdToSk` collapse to `skToId` / `idToSk`, and the
  presence of a `_skToType` entry collapses to the boolean map `skToType`.
* Attribute names are drawn from the finite universe `Attr := Fin 4`
  (attribute `0` plays the role of the type's primary key); attribute values
  are integers.  A JavaScript value read from a hash is `JsVal := Option Int`
  (`none` models `undefined`), and a hash is `Hash := Attr → Option JsVal`:
  the outer `Option` models presence of the key in the object (JavaScript
  distinguishes a missing key from a key stored with value `undefined`).
* JavaScript assignment of `undefined` into a *table* slot (for example
  `_skToCommitted[sk] = _skToRollback[sk]` when no rollback exists) is
  identified with deleting the slot, as the code only ever reads such slots
  back through `||`-defaulting or `for`/`in` iteration.
* `console.log` appends to the `log` field.  `setStatus` appends the
  `(storeKey, previous, next)` triple to `statusEvents` whenever it fires the
  `status` property-change notification and the nested-store
  `parentDidChangeStatus` callbacks; a transition that bypasses `setStatus`
  appends nothing.
* The run-loop only queues `commitChanges` / `refreshLiveQueries`; queueing
  has no effect on the modelled state, so `autoCommit` scheduling points are
  no-ops here and `commitChanges` is invoked explicitly.
* Query registration, record materialisation, attribute-level observer
  notification and the `lastAccess` table are outside the modelled state.
* Where the JavaScript would throw a `TypeError` (reading a property of
  `undefined`), the model returns the state as it stands at the throw point:
  the exception aborts the rest of the method.
-/

namespace Overture

/-! ## Status bit constants (`Store.js` lines 24-33) -/

def EMPTY : Nat := 1
def READY : Nat := 2
def DESTROYED : Nat := 4
def NON_EXISTENT : Nat := 8
def LOADING : Nat := 16
def COMMITTING : Nat := 32
def NEW : Nat := 64
def DIRTY : Nat := 128
def OBSOLETE : Nat := 256

/-! ## Error messages (`Store.js` lines 36-45) -/

def CANNOT_CREATE_EXISTING_RECORD_ERROR : String :=
  "Error: Cannot create existing record"
def CANNOT_WRITE_TO_UNREADY_RECORD_ERROR : String :=
  "Warning: Cannot write to unready record"
def FETCHED_IS_DESTROYED_OR_NON_EXISTENT_ERROR : String :=
  "Error: Record loaded which has status destroyed or non-existent"
def SOURCE_COMMIT_CREATE_MISMATCH_ERROR : String :=
  "Error: Source committed a create on a record not marked new"
def SOURCE_COMMIT_DESTROY_MISMATCH_ERROR : String :=
  "Error: Source commited a destroy on a record not marked destroyed"

/-! ## Hashes and attribute bookkeeping -/

abbrev Attr := Fin 4
abbrev JsVal := Option Int
abbrev Hash := Attr → Option JsVal
abbrev Changed := Attr → Option Bool

def hEmpty : Hash := fun _ => none
def chEmpty : Changed := fun _ => none

/-- Reading `h[k]` in JavaScript: a missing key reads as `undefined`. -/
def vread (h : Hash) (k : Attr) : JsVal := (h k).getD none

/-- Does the hash own at least one key (`for key in h` runs ≥ 1 iteration)? -/
def hNonempty (h : Hash) : Bool := decide (∃ k, (h k).isSome)

/-- `NS.extend base extra`: copy every key owned by `extra` over `base`. -/
def extendH (base extra : Hash) : Hash :=
  fun k => match extra k with
    | some v => some v
    | none => base k

/-- The key-by-key write loop of the non-dirty update path: for every key
owned by `patch`, if the new value differs from the current read, store it. -/
def mergeStep (cur patch : Hash) : Hash :=
  fun k => match patch k with
    | some v => if v ≠ vread cur k then some v else cur k
    | none => cur k

/-! ## Finite maps over store keys -/

def mset {α : Type} (m : Nat → Option α) (k : Nat) (v : Option α) :
    Nat → Option α :=
  fun i => if i = k then v else m i

def bset (m : Nat → Bool) (k : Nat) (v : Bool) : Nat → Bool :=
  fun i => if i = k then v else m i

/-- The `_skToChanged` journal, iterated by `commitChanges`, is kept as an
association list in insertion order. -/
abbrev ChangedJournal := List (Nat × Changed)

def alookup (l : ChangedJournal) (k : Nat) : Option Changed :=
  match l with
  | [] => none
  | (k2, v) :: rest => if k = k2 then some v else alookup rest k

def aset (l : ChangedJournal) (k : Nat) (v : Changed) : ChangedJournal :=
  match l with
  | [] => [(k, v)]
  | (k2, v2) :: rest =>
      if k = k2 then (k2, v) :: rest else (k2, v2) :: aset rest k v

def adel (l : ChangedJournal) (k : Nat) : ChangedJournal :=
  l.filter (fun p => p.1 ≠ k)

/-- JavaScript set-objects (`_created[sk] = 1`). -/
def insertSet (l : List Nat) (k : Nat) : List Nat :=
  if k ∈ l then l else l ++ [k]

def eraseSet (l : List Nat) (k : Nat) : List Nat :=
  l.filter (fun i => i ≠ k)

/-! ## The store state -/

structure Store where
  nextSk : Nat
  skToData : Nat → Option Hash
  skToStatus : Nat → Option Nat
  skToType : Nat → Bool
  skToId : Nat → Option Nat
  idToSk : Nat → Option Nat
  skToChanged : ChangedJournal
  skToCommitted : Nat → Option Hash
  skToRollback : Nat → Option Hash
  skToHasObservers : Nat → Bool
  created : List Nat
  destroyed : List Nat
  statusEvents : List (Nat × Nat × Nat)
  log : List String
  autoCommit : Bool
  rebaseConflicts : Bool

def initStore (autoCommit rebaseConflicts : Bool) : Store where
  nextSk := 1
  skToData := fun _ => none
  skToStatus := fun _ => none
  skToType := fun _ => false
  skToId := fun _ => none
  idToSk := fun _ => none
  skToChanged := []
  skToCommitted := fun _ => none
  skToRollback := fun _ => none
  skToHasObservers := fun _ => false
  created := []
  destroyed := []
  statusEvents := []
  log := []
  autoCommit := autoCommit
  rebaseConflicts := rebaseConflicts

/-! ## Status table -/

/-- `getStatus`: `_skToStatus[storeKey] || EMPTY`. -/
def getStatus (s : Store) (sk : Nat) : Nat :=
  match s.skToStatus sk with
  | some st => if st = 0 then EMPTY else st
  | none => EMPTY

/-- A direct `_skToStatus[storeKey]` read (used only in bit tests, where
JavaScript's `undefined & mask` behaves like `0 & mask`). -/
def rawStatus (s : Store) (sk : Nat) : Nat := (s.skToStatus sk).getD 0

/-- `status & mask` used as a truthiness test. -/
def hasBits (st mask : Nat) : Bool := decide (st &&& mask ≠ 0)

/-- `status & ~mask` (all statuses fit well inside 32 bits): the bits of
`st &&& mask` form a subset of the bits of `st`, so clearing them is the same
as xor-ing them out. -/
def clearMask (st mask : Nat) : Nat := st ^^^ (st &&& mask)

/-- `setStatus` (`Store.js` lines 529-542): on a change, write the new value
and fire the status notifications (recorded in `statusEvents`). -/
def setStatus (s : Store) (sk st : Nat) : Store :=
  if getStatus s sk = st then s
  else
    { s with
      skToStatus := mset s.skToStatus sk (some st)
      statusEvents := s.statusEvents ++ [(sk, getStatus s sk, st)] }

def setDirty (s : Store) (sk : Nat) : Store :=
  setStatus s sk (getStatus s sk ||| DIRTY)

def setLoading (s : Store) (sk : Nat) : Store :=
  setStatus s sk (getStatus s sk ||| LOADING)

def setCommitting (s : Store) (sk : Nat) : Store :=
  setStatus s sk (getStatus s sk ||| COMMITTING)

def setObsolete (s : Store) (sk : Nat) : Store :=
  setStatus s sk (getStatus s sk ||| OBSOLETE)

end Overture

namespace Overture

/-! ## Data table and update path -/

def primaryKey : Attr := 0

/-- `updateHash` (`Store.js` lines 863-941), for a non-nested store.  Returns
the store plus the "was the data actually written?" result.  The merge loops
are expressed pointwise: `mergeStep` is the write loop, `newChanged` the
per-key dirty-flag bookkeeping, and `seenChange` folds the in-loop flag with
the post-loop rescan of `changed`. -/
def updateHash (s : Store) (sk : Nat) (patch : Hash) (changeIsDirty : Bool) :
    Store × Bool :=
  let status := getStatus s sk
  let current := (s.skToData sk).getD hEmpty
  let s0 := { s with skToData := mset s.skToData sk (some current) }
  let dirty := if status = READY ||| NEW then false else changeIsDirty
  if dirty then
    if hasBits status READY = false then
      ({ s0 with log := s0.log ++ [CANNOT_WRITE_TO_UNREADY_RECORD_ERROR] },
        false)
    else
      let committed := (s0.skToCommitted sk).getD current
      let changed0 := (alookup s0.skToChanged sk).getD chEmpty
      let newCur : Hash := mergeStep current patch
      let newChanged : Changed := fun k =>
        match patch k with
        | some v =>
            if v ≠ vread current k then some (decide (v ≠ vread committed k))
            else changed0 k
        | none => changed0 k
      let seenChange := decide (∃ k, newChanged k = some true)
      let s1 := { s0 with
        skToData := mset s0.skToData sk (some newCur)
        skToCommitted := mset s0.skToCommitted sk (some committed)
        skToChanged := aset s0.skToChanged sk newChanged }
      if seenChange then (setDirty s1 sk, true)
      else
        let s2 := setStatus s1 sk (clearMask status DIRTY)
        ({ s2 with
            skToCommitted := mset s2.skToCommitted sk none
            skToChanged := adel s2.skToChanged sk }, true)
  else
    ({ s0 with skToData := mset s0.skToData sk (some (mergeStep current patch)) },
      true)

/-- `setHash(sk, data)` with no `changeIsDirty` argument, as at every internal
call site: the flag reads as `undefined`, i.e. `false`. -/
def setHashClean (s : Store) (sk : Nat) (d : Hash) : Store :=
  (updateHash s sk d false).1

/-- `revertHash` (`Store.js` lines 954-960). -/
def revertHash (s : Store) (sk : Nat) : Store :=
  match s.skToCommitted sk with
  | some committed => (updateHash s sk committed true).1
  | none => s

/-! ## Key registry -/

/-- `getStoreKey` (`Store.js` lines 195-211) for the single modelled type. -/
def getStoreKeyOp (s : Store) (id : Option Nat) : Store × Nat :=
  match id.bind s.idToSk with
  | some sk => (s, sk)
  | none =>
      let sk := s.nextSk
      ({ s with
          nextSk := sk + 1
          skToType := bset s.skToType sk true
          skToId := mset s.skToId sk id
          idToSk := match id with
            | some i => mset s.idToSk i sk
            | none => s.idToSk }, sk)

/-- `setIdForStoreKey` (`Store.js` lines 244-265).  On an untyped store key
the JavaScript throws reading `Type.primaryKey`; the model stops there. -/
def setIdForStoreKey (s : Store) (sk id : Nat) : Store :=
  if s.skToType sk = false then s
  else
    let oldId := s.skToId sk
    if oldId = some id then s
    else
      let s1 := { s with
        skToId := mset s.skToId sk (some id)
        idToSk :=
          mset (match oldId with
                | some o => mset s.idToSk o none
                | none => s.idToSk) id (some sk) }
      let upd : Hash := fun k =>
        if k = primaryKey then some (some (Int.ofNat id)) else none
      (updateHash s1 sk upd false).1

/-! ## Unloading -/

/-- `mayUnloadRecord` (`Store.js` lines 627-638): only unwatched clean empty,
ready or destroyed records (no nested stores are attached in this model). -/
def mayUnloadRecord (s : Store) (sk : Nat) : Bool :=
  decide (clearMask (getStatus s sk) (EMPTY ||| READY ||| DESTROYED) = 0) &&
    !s.skToHasObservers sk

/-- `unloadRecord` (`Store.js` lines 677-695).  On an untyped store key the
JavaScript throws reading `Type.className` before any entry is deleted. -/
def unloadRecord (s : Store) (sk : Nat) : Store × Bool :=
  if mayUnloadRecord s sk = false then (s, false)
  else if s.skToType sk = false then (s, false)
  else
    let id := s.skToId sk
    ({ s with
        skToData := mset s.skToData sk none
        skToStatus := mset s.skToStatus sk none
        skToType := bset s.skToType sk false
        skToId := mset s.skToId sk none
        idToSk := match id with
          | some i => mset s.idToSk i none
          | none => s.idToSk }, true)

/-! ## Mutation journal -/

/-- `createRecord` (`Store.js` lines 715-735).  Note the status is written
directly into `_skToStatus`, not through `setStatus`. -/
def createRecord (s : Store) (sk : Nat) (d : Hash) : Store :=
  let status := getStatus s sk
  if status ≠ EMPTY ∧ status ≠ DESTROYED then
    { s with log := s.log ++ [CANNOT_CREATE_EXISTING_RECORD_ERROR] }
  else
    { s with
      skToData := mset s.skToData sk (some d)
      skToStatus := mset s.skToStatus sk (some (READY ||| NEW))
      created := insertSet s.created sk }

/-- `destroyRecord` (`Store.js` lines 754-779). -/
def destroyRecord (s : Store) (sk : Nat) : Store :=
  let status := getStatus s sk
  if status = READY ||| NEW then
    let s1 := { s with created := eraseSet s.created sk }
    let s2 := setStatus s1 sk DESTROYED
    (unloadRecord s2 sk).1
  else
    let s1 :=
      if hasBits status DIRTY then
        let sa := setHashClean s sk ((s.skToCommitted sk).getD hEmpty)
        { sa with
          skToCommitted := mset sa.skToCommitted sk none
          skToChanged := adel sa.skToChanged sk }
      else s
    let s2 := { s1 with destroyed := insertSet s1.destroyed sk }
    setStatus s2 sk (DESTROYED ||| DIRTY ||| (status &&& (OBSOLETE ||| NEW)))

/-- `fetchHash` (`Store.js` lines 792-809); the `fetchRecord` /
`refreshRecord` calls go to the external source. -/
def fetchHash (s : Store) (sk : Nat) : Store :=
  let status := getStatus s sk
  if hasBits status (LOADING ||| NEW ||| DESTROYED ||| NON_EXISTENT) then s
  else if s.skToType sk = false then s
  else if hasBits status EMPTY then setStatus s sk (EMPTY ||| LOADING)
  else setLoading s sk

end Overture

namespace Overture

/-! ## Commit coordinator (`Store.js` lines 388-457) -/

/-- The per-type changeset handed to `Source.commitChanges` (a single type is
modelled, so there is exactly one entry). -/
structure Changeset where
  createSks : List Nat
  createRecords : List (Option Hash)
  updateSks : List Nat
  updateRecords : List (Option Hash)
  updateChanges : List Changed
  destroySks : List Nat
  destroyIds : List (Option Nat)

def emptyChangeset : Changeset :=
  ⟨[], [], [], [], [], [], []⟩

/-- The `for storeKey in _created` loop.  The boolean result is false when
the JavaScript throws reading `Type.className` of an untyped store key. -/
def commitCreatedLoop : Store → List Nat → Changeset → Store × Changeset × Bool
  | s, [], ch => (s, ch, true)
  | s, sk :: rest, ch =>
      if s.skToType sk = false then (s, ch, false)
      else
        let ch1 := { ch with
          createSks := ch.createSks ++ [sk]
          createRecords := ch.createRecords ++ [s.skToData sk] }
        commitCreatedLoop (setCommitting s sk) rest ch1

/-- The `for storeKey in _skToChanged` loop; also accumulates the deferred
`newSkToChanged` entries for records already committing. -/
def commitChangedLoop :
    Store → ChangedJournal → ChangedJournal → Changeset →
      Store × ChangedJournal × Changeset × Bool
  | s, [], kept, ch => (s, kept, ch, true)
  | s, (sk, changed) :: rest, kept, ch =>
      let status := rawStatus s sk
      if s.skToType sk = false then (s, kept, ch, false)
      else if hasBits status COMMITTING then
        commitChangedLoop s rest (kept ++ [(sk, changed)]) ch
      else
        let s1 := { s with
          skToRollback := mset s.skToRollback sk (s.skToCommitted sk)
          skToCommitted := mset s.skToCommitted sk none }
        let ch1 := { ch with
          updateSks := ch.updateSks ++ [sk]
          updateRecords := ch.updateRecords ++ [s1.skToData sk]
          updateChanges := ch.updateChanges ++ [changed] }
        let s2 := setStatus s1 sk ((clearMask status DIRTY) ||| COMMITTING)
        commitChangedLoop s2 rest kept ch1

/-- The `for storeKey in _destroyed` loop; also accumulates the deferred
`newDestroyed` entries for records still waiting on their create ack. -/
def commitDestroyedLoop :
    Store → List Nat → List Nat → Changeset →
      Store × List Nat × Changeset × Bool
  | s, [], kept, ch => (s, kept, ch, true)
  | s, sk :: rest, kept, ch =>
      if s.skToType sk = false then (s, kept, ch, false)
      else
        let id := s.skToId sk
        if hasBits (rawStatus s sk) NEW then
          commitDestroyedLoop s rest (kept ++ [sk]) ch
        else
          let ch1 := { ch with
            destroySks := ch.destroySks ++ [sk]
            destroyIds := ch.destroyIds ++ [id] }
          let s1 := setStatus s sk (DESTROYED ||| COMMITTING)
          commitDestroyedLoop s1 rest kept ch1

/-- `commitChanges`: builds the changeset for the source, transitions the
affected records to `COMMITTING` and swaps in the deferred journals.  `none`
means the JavaScript threw mid-way (journals not swapped, source not
called). -/
def commitChanges (s : Store) : Store × Option Changeset :=
  let r1 := commitCreatedLoop s s.created emptyChangeset
  if r1.2.2 = false then (r1.1, none)
  else
    let r2 := commitChangedLoop r1.1 r1.1.skToChanged [] r1.2.1
    if r2.2.2.2 = false then (r2.1, none)
    else
      let r3 := commitDestroyedLoop r2.1 r2.1.destroyed [] r2.2.2.1
      if r3.2.2.2 = false then (r3.1, none)
      else
        ({ r3.1 with
            skToChanged := r2.2.1
            created := []
            destroyed := r3.2.1 }, some r3.2.2.1)

/-! ## `discardChanges` (`Store.js` lines 468-498) -/

/-- `for storeKey in _created`: destroy and unload.  The boolean is false when
unloading throws on an untyped store key, aborting the rest of the method. -/
def discardCreatedLoop : Store → List Nat → Store × Bool
  | s, [] => (s, true)
  | s, sk :: rest =>
      let s1 := setStatus s sk DESTROYED
      if mayUnloadRecord s1 sk && !s1.skToType sk then (s1, false)
      else discardCreatedLoop (unloadRecord s1 sk).1 rest

/-- `for storeKey in _skToChanged`: restore the committed hash through
`setHash` and recompute the status. -/
def discardChangedLoop : Store → ChangedJournal → Store
  | s, [] => s
  | s, (sk, _) :: rest =>
      let s1 := setHashClean s sk ((s.skToCommitted sk).getD hEmpty)
      let s2 := setStatus s1 sk
        (READY ||| (getStatus s1 sk &&& (OBSOLETE ||| LOADING ||| COMMITTING)))
      discardChangedLoop s2 rest

/-- `for storeKey in _destroyed`. -/
def discardDestroyedLoop : Store → List Nat → Store
  | s, [] => s
  | s, sk :: rest =>
      discardDestroyedLoop
        (setStatus s sk (READY ||| (getStatus s sk &&& OBSOLETE))) rest

def discardChanges (s : Store) : Store :=
  let r := discardCreatedLoop s s.created
  if r.2 = false then r.1
  else
    let s2 := discardChangedLoop r.1 r.1.skToChanged
    let s3 := { s2 with skToChanged := [], skToCommitted := fun _ => none }
    let s4 := discardDestroyedLoop s3 s3.destroyed
    { s4 with created := [], destroyed := [] }

end Overture

namespace Overture

/-! ## Reconciliation engine: source callbacks (`Store.js` lines 1004-1549)

The JavaScript callbacks loop over their payload; the model gives the loop
body for one payload element (`...1`), which is what every claim quantifies
over, plus list versions as folds where needed. -/

/-- The rebase loop of `sourceDidFetchUpdates` (`Store.js` lines 1177-1187),
data part: every key of `oldData` owned by `oldChanged` (the local edits,
even ones changed and changed back) is reapplied on top; every other key of
`oldData` takes the merged update's value. -/
def rebaseData (oldData : Hash) (oldChanged : Changed) (upd : Hash) : Hash :=
  fun k => match oldData k with
    | some v =>
        if (oldChanged k).isSome then some v
        else some (vread upd k)
    | none => none

/-- The rebase loop, dirty-flag part: a key stays marked changed exactly when
it is a locally-changed key of `oldData` whose local value differs from the
merged update's value. -/
def rebaseChanged (oldData : Hash) (oldChanged : Changed) (upd : Hash) :
    Changed :=
  fun k =>
    if (oldData k).isSome ∧ (oldChanged k).isSome ∧
        vread oldData k ≠ vread upd k
    then some true else none

/-- The shared tail of `sourceDidFetchUpdates`: optionally drop the dirty
bookkeeping, then apply the update through the non-dirty update path and
reset the status to `READY`. -/
def fetchUpdatesFinish (s : Store) (sk : Nat) (upd : Hash)
    (dropDirty : Bool) : Store :=
  let s1 :=
    if dropDirty then
      { s with
        skToChanged := adel s.skToChanged sk
        skToCommitted := mset s.skToCommitted sk none }
    else s
  let s2 := setHashClean s1 sk upd
  setStatus s2 sk READY

/-- `sourceDidFetchUpdates` (`Store.js` lines 1131-1203) for one id. -/
def sourceDidFetchUpdates1 (s : Store) (id : Nat) (upd : Hash) : Store :=
  match s.idToSk id with
  | none => s
  | some sk =>
    let status := rawStatus s sk
    if hasBits status READY = false then s
    else if hasBits status COMMITTING && (s.skToRollback sk).isNone then s
      -- JS TypeError inside NS.extend(undefined, update)
    else
      let upd1 :=
        if hasBits status COMMITTING then
          extendH ((s.skToRollback sk).getD hEmpty) upd
        else upd
      let s1 :=
        if hasBits status COMMITTING then
          { s with skToRollback := mset s.skToRollback sk none }
        else s
      if hasBits status DIRTY then
        if (s1.skToCommitted sk).isNone then s1
          -- JS TypeError inside NS.extend(undefined, update)
        else
          let upd2 := extendH ((s1.skToCommitted sk).getD hEmpty) upd1
          if s1.rebaseConflicts then
            let oldData := (s1.skToData sk).getD hEmpty
            let oldChangedOpt := alookup s1.skToChanged sk
            if oldChangedOpt.isNone && hNonempty oldData then s1
              -- JS TypeError evaluating (key in oldChanged)
            else
              let oldChanged := oldChangedOpt.getD chEmpty
              let newData := rebaseData oldData oldChanged upd2
              let newChanged := rebaseChanged oldData oldChanged upd2
              if decide (∃ k, newChanged k = some true) then
                let s2 := { s1 with
                  skToChanged := aset s1.skToChanged sk newChanged
                  skToCommitted := mset s1.skToCommitted sk (some upd2) }
                let s3 := setHashClean s2 sk newData
                setStatus s3 sk (READY ||| DIRTY)
              else fetchUpdatesFinish s1 sk upd2 true
          else fetchUpdatesFinish s1 sk upd2 true
      else fetchUpdatesFinish s1 sk upd1 false

def sourceDidFetchUpdatesList (s : Store) (upds : List (Nat × Hash)) : Store :=
  upds.foldl (fun acc p => sourceDidFetchUpdates1 acc p.1 p.2) s

/-- One record of `sourceDidFetchRecords` (`Store.js` lines 1037-1082),
including the trailing routing of already-loaded records through
`sourceDidFetchUpdates`. -/
def sourceDidFetchRecord1 (s : Store) (id : Nat) (d : Hash) : Store :=
  let r := getStoreKeyOp s (some id)
  let s1 := r.1
  let sk := r.2
    let status := getStatus s1 sk
    if hasBits status READY then sourceDidFetchUpdates1 s1 id d
    else if hasBits status EMPTY = false then
      { s1 with log := s1.log ++ [FETCHED_IS_DESTROYED_OR_NON_EXISTENT_ERROR] }
    else
      let s2 := setHashClean s1 sk d
      setStatus s2 sk READY

/-- `sourceHasUpdatesForRecords` (`Store.js` lines 1098-1112) for one id. -/
def sourceHasUpdates1 (s : Store) (id : Nat) : Store :=
  match s.idToSk id with
  | none => s
  | some sk =>
      if hasBits (rawStatus s sk) READY then setObsolete s sk else s

/-- `sourceCouldNotFindRecords` (`Store.js` lines 1220-1242) for one id. -/
def sourceCouldNotFind1 (s : Store) (id : Nat) : Store :=
  let r := getStoreKeyOp s (some id)
  let s1 := r.1
  let sk := r.2
    let status := getStatus s1 sk
    if hasBits status EMPTY then setStatus s1 sk NON_EXISTENT
    else
      let s2 :=
        if hasBits status DIRTY then
          let sa := setHashClean s1 sk ((s1.skToCommitted sk).getD hEmpty)
          { sa with
            skToCommitted := mset sa.skToCommitted sk none
            skToChanged := adel sa.skToChanged sk }
        else s1
      let s3 := setStatus s2 sk DESTROYED
      (unloadRecord s3 sk).1

/-- `sourceDidDestroyRecords` (`Store.js` lines 1259-1277) for one id. -/
def sourceDidDestroy1 (s : Store) (id : Nat) : Store :=
  let r := getStoreKeyOp s (some id)
  let s1 := r.1
  let sk := r.2
    let status := getStatus s1 sk
    let s2 :=
      if hasBits status DIRTY then
        let sa := setHashClean s1 sk ((s1.skToCommitted sk).getD hEmpty)
        { sa with
          skToCommitted := mset sa.skToCommitted sk none
          skToChanged := adel sa.skToChanged sk }
      else s1
    let s3 := setStatus s2 sk DESTROYED
    (unloadRecord s3 sk).1

/-- `sourceDidCommitCreate` (`Store.js` lines 1295-1307) for one store key. -/
def sourceDidCommitCreate1 (s : Store) (sk id : Nat) : Store :=
  let status := getStatus s sk
  if hasBits status NEW then
    if s.skToType sk = false then s
      -- JS TypeError inside setIdForStoreKey (Type.primaryKey of undefined)
    else
      let s1 := setIdForStoreKey s sk id
      setStatus s1 sk (clearMask status (NEW ||| COMMITTING))
  else
    { s with log := s.log ++ [SOURCE_COMMIT_CREATE_MISMATCH_ERROR] }

/-- `sourceDidNotCreate` (`Store.js` lines 1328-1351) for one store key. -/
def sourceDidNotCreate1 (s : Store) (sk : Nat) : Store :=
  let status := getStatus s sk
  if hasBits status DESTROYED then
    let s1 := setStatus s sk DESTROYED
    (unloadRecord s1 sk).1
  else
    let s1 :=
      if hasBits status DIRTY then
        { s with
          skToCommitted := mset s.skToCommitted sk none
          skToChanged := adel s.skToChanged sk }
      else s
    let s2 := setStatus s1 sk (READY ||| NEW)
    { s2 with created := insertSet s2.created sk }

/-- `sourceDidCommitUpdate` (`Store.js` lines 1367-1387) for one store key. -/
def sourceDidCommitUpdate1 (s : Store) (sk : Nat) : Store :=
  let status := getStatus s sk
  let s1 := { s with skToRollback := mset s.skToRollback sk none }
  if hasBits status READY = false then s1
  else if hasBits status COMMITTING = false then setObsolete s1 sk
  else setStatus s1 sk (clearMask status COMMITTING)

def sourceDidCommitUpdateList (s : Store) (sks : List Nat) : Store :=
  sks.foldl sourceDidCommitUpdate1 s

/-- `sourceDidNotUpdate` (`Store.js` lines 1408-1442) for one store key. -/
def sourceDidNotUpdate1 (s : Store) (sk : Nat) : Store :=
  let status := getStatus s sk
  if hasBits status READY = false then s
  else
    let committedOpt := s.skToRollback sk
    let s1 := { s with
      skToCommitted := mset s.skToCommitted sk committedOpt
      skToRollback := mset s.skToRollback sk none }
    let current := (s1.skToData sk).getD hEmpty
    if hasBits status DIRTY && hNonempty current && committedOpt.isNone then s1
      -- JS TypeError reading committed[key]
    else
      let s2 :=
        if hasBits status DIRTY && hNonempty current then
          let cm := committedOpt.getD hEmpty
          let newChanged : Changed := fun k =>
            if (current k).isSome ∧ vread current k ≠ vread cm k
            then some true else none
          { s1 with skToChanged := aset s1.skToChanged sk newChanged }
        else s1
      if hasBits status COMMITTING = false then setObsolete s2 sk
      else setStatus s2 sk ((clearMask status COMMITTING) ||| DIRTY)

def sourceDidNotUpdateList (s : Store) (sks : List Nat) : Store :=
  sks.foldl sourceDidNotUpdate1 s

/-- `sourceDidCommitDestroy` (`Store.js` lines 1458-1471) for one store key.
Note the mismatch branch only logs: the destroy-and-unload below it runs
unconditionally. -/
def sourceDidCommitDestroy1 (s : Store) (sk : Nat) : Store :=
  let status := getStatus s sk
  let s1 :=
    if hasBits status DESTROYED = false then
      { s with log := s.log ++ [SOURCE_COMMIT_DESTROY_MISMATCH_ERROR] }
    else s
  let s2 := setStatus s1 sk DESTROYED
  (unloadRecord s2 sk).1

/-- `sourceDidNotDestroy` (`Store.js` lines 1492-1506) for one store key. -/
def sourceDidNotDestroy1 (s : Store) (sk : Nat) : Store :=
  let status := getStatus s sk
  let s1 :=
    if hasBits status DESTROYED = false then
      { s with log := s.log ++ [SOURCE_COMMIT_DESTROY_MISMATCH_ERROR] }
    else s
  let s2 := setStatus s1 sk (DESTROYED ||| DIRTY)
  { s2 with destroyed := insertSet s2.destroyed sk }

/-- `sourceDidError` (`Store.js` lines 1524-1549) for one store key. -/
def sourceDidError1 (s : Store) (sk : Nat) : Store :=
  let status := getStatus s sk
  if hasBits status NEW then
    let s1 := setStatus s sk DESTROYED
    (unloadRecord s1 sk).1
  else
    let s1 := setHashClean s sk ((s.skToRollback sk).getD hEmpty)
    let s2 := { s1 with
      skToChanged := adel s1.skToChanged sk
      skToCommitted := mset s1.skToCommitted sk none
      skToRollback := mset s1.skToRollback sk none }
    setStatus s2 sk (READY ||| OBSOLETE)

end Overture

namespace Overture

/-! ## Basic lemmas about the map helpers and the status table -/

@[simp]
theorem mset_self {α : Type} (m : Nat → Option α) (k : Nat) (v : Option α) :
    mset m k v k = v := by
  simp [mset]

theorem mset_ne {α : Type} (m : Nat → Option α) {i k : Nat} (v : Option α)
    (h : i ≠ k) : mset m k v i = m i := by
  simp [mset, h]

@[simp]
theorem bset_self (m : Nat → Bool) (k : Nat) (v : Bool) : bset m k v k = v := by
  simp [bset]

theorem getStatus_setStatus_self (s : Store) (sk st : Nat) (h : st ≠ 0) :
    getStatus (setStatus s sk st) sk = st := by
  unfold setStatus
  by_cases heq : getStatus s sk = st
  · rw [if_pos heq]; exact heq
  · rw [if_neg heq]
    simp only [getStatus, mset_self]
    exact if_neg h

theorem skToStatus_setStatus (s : Store) (sk st k : Nat) :
    (setStatus s sk st).skToStatus k =
      if getStatus s sk = st then s.skToStatus k
      else mset s.skToStatus sk (some st) k := by
  unfold setStatus
  by_cases heq : getStatus s sk = st
  · rw [if_pos heq, if_pos heq]
  · rw [if_neg heq, if_neg heq]

@[simp]
theorem skToData_setStatus (s : Store) (sk st : Nat) :
    (setStatus s sk st).skToData = s.skToData := by
  unfold setStatus
  split <;> rfl

@[simp]
theorem skToCommitted_setStatus (s : Store) (sk st : Nat) :
    (setStatus s sk st).skToCommitted = s.skToCommitted := by
  unfold setStatus
  split <;> rfl

@[simp]
theorem skToRollback_setStatus (s : Store) (sk st : Nat) :
    (setStatus s sk st).skToRollback = s.skToRollback := by
  unfold setStatus
  split <;> rfl

@[simp]
theorem skToChanged_setStatus (s : Store) (sk st : Nat) :
    (setStatus s sk st).skToChanged = s.skToChanged := by
  unfold setStatus
  split <;> rfl

@[simp]
theorem skToType_setStatus (s : Store) (sk st : Nat) :
    (setStatus s sk st).skToType = s.skToType := by
  unfold setStatus
  split <;> rfl

@[simp]
theorem skToId_setStatus (s : Store) (sk st : Nat) :
    (setStatus s sk st).skToId = s.skToId := by
  unfold setStatus
  split <;> rfl

@[simp]
theorem idToSk_setStatus (s : Store) (sk st : Nat) :
    (setStatus s sk st).idToSk = s.idToSk := by
  unfold setStatus
  split <;> rfl

@[simp]
theorem skToHasObservers_setStatus (s : Store) (sk st : Nat) :
    (setStatus s sk st).skToHasObservers = s.skToHasObservers := by
  unfold setStatus
  split <;> rfl

@[simp]
theorem created_setStatus (s : Store) (sk st : Nat) :
    (setStatus s sk st).created = s.created := by
  unfold setStatus
  split <;> rfl

@[simp]
theorem destroyed_setStatus (s : Store) (sk st : Nat) :
    (setStatus s sk st).destroyed = s.destroyed := by
  unfold setStatus
  split <;> rfl

@[simp]
theorem log_setStatus (s : Store) (sk st : Nat) :
    (setStatus s sk st).log = s.log := by
  unfold setStatus
  split <;> rfl

@[simp]
theorem nextSk_setStatus (s : Store) (sk st : Nat) :
    (setStatus s sk st).nextSk = s.nextSk := by
  unfold setStatus
  split <;> rfl

/-! ## Concrete example stores

A store holding a single loaded record: store key `1`, mapped to id `7`,
with the given data hash and status. -/

def attrX : Attr := 1
def attrA : Attr := 1
def attrB : Attr := 2

def hash1 (k : Attr) (v : Int) : Hash :=
  fun i => if i = k then some (some v) else none

def hash2 (k1 : Attr) (v1 : Int) (k2 : Attr) (v2 : Int) : Hash :=
  fun i => if i = k1 then some (some v1)
    else if i = k2 then some (some v2) else none

def oneRecordStore (d : Hash) (st : Nat) : Store where
  nextSk := 2
  skToData := mset (fun _ => none) 1 (some d)
  skToStatus := mset (fun _ => none) 1 (some st)
  skToType := bset (fun _ => false) 1 true
  skToId := mset (fun _ => none) 1 (some 7)
  idToSk := mset (fun _ => none) 7 (some 1)
  skToChanged := []
  skToCommitted := fun _ => none
  skToRollback := fun _ => none
  skToHasObservers := fun _ => false
  created := []
  destroyed := []
  statusEvents := []
  log := []
  autoCommit := false
  rebaseConflicts := true

end Overture

namespace Overture

@[simp]
theorem mset_mset {α : Type} (m : Nat → Option α) (k : Nat) (v w : Option α) :
    mset (mset m k v) k w = mset m k w := by
  funext i
  by_cases h : i = k <;> simp [mset, h]

/-! ## Claim C1: the edit-commit-update race (spec scenario S2)

The concrete S2 trace: store key `1` (id `7`) holds `{x:1}`, READY; a dirty
edit writes `{x:2}`; `commitChanges` dispatches the update; the server then
pushes `{x:3}` for id `7` before the ack; finally the ack arrives. -/

def committingStore : Store :=
  { oneRecordStore (hash1 attrX 2) (READY ||| COMMITTING) with
    skToRollback := mset (fun _ => none) 1 (some (hash1 attrX 1)) }

def raceStore : Store := oneRecordStore (hash1 attrX 1) READY
def raceEdit : Store := (updateHash raceStore 1 (hash1 attrX 2) true).1
def raceCommit : Store := (commitChanges raceEdit).1
def racePush : Store := sourceDidFetchUpdates1 raceCommit 7 (hash1 attrX 3)
def raceAck : Store := sourceDidCommitUpdate1 racePush 1

/-- C1 counterexample: on the S2 trace the record ends with data `{x:3}` (the
server value, not the claimed local edit `{x:2}`), final status
`READY|OBSOLETE` (not `READY`), and COMMITTING is already clear after the
push (not still set); so the claimed conjunction fails at this input. -/
theorem C1_counterexample :
    vread ((raceAck.skToData 1).getD hEmpty) attrX = some 3 ∧
    getStatus raceAck 1 = READY ||| OBSOLETE ∧
    hasBits (getStatus racePush 1) COMMITTING = false ∧
    ¬(vread ((raceAck.skToData 1).getD hEmpty) attrX = some 2 ∧
      getStatus raceAck 1 = READY ∧
      hasBits (getStatus racePush 1) COMMITTING = true) := by
  decide

/-- C1 (amended): in the edit-commit-update race, the push itself clears
COMMITTING: `sourceDidFetchUpdates` merges the update over the rollback
snapshot, applies the merged hash over the local data through the non-dirty
update path, and resets the status to exactly `READY`; the subsequent
`sourceDidCommitUpdate` then finds the record no longer COMMITTING and marks
it `READY|OBSOLETE`, leaving the data unchanged. -/
theorem C1_race_push_clears_committing (s : Store) (id sk : Nat)
    (upd rb d : Hash)
    (hid : s.idToSk id = some sk)
    (hst : s.skToStatus sk = some (READY ||| COMMITTING))
    (hrb : s.skToRollback sk = some rb)
    (hd : s.skToData sk = some d) :
    getStatus (sourceDidFetchUpdates1 s id upd) sk = READY ∧
    (sourceDidFetchUpdates1 s id upd).skToData sk =
      some (mergeStep d (extendH rb upd)) ∧
    getStatus (sourceDidCommitUpdate1 (sourceDidFetchUpdates1 s id upd) sk) sk =
      READY ||| OBSOLETE ∧
    (sourceDidCommitUpdate1 (sourceDidFetchUpdates1 s id upd) sk).skToData sk =
      some (mergeStep d (extendH rb upd)) := by
  have ha : (34 : Nat) &&& 128 = 0 := by decide
  have hb : (2 : Nat) &&& 32 = 0 := by decide
  simp [sourceDidFetchUpdates1, sourceDidCommitUpdate1, setObsolete, hid,
    rawStatus, hst, hrb, hd, fetchUpdatesFinish, setHashClean, updateHash,
    setStatus, getStatus, mset, hasBits, ha, hb,
    READY, COMMITTING, DIRTY, NEW, EMPTY, OBSOLETE]

/-- C1 witness: the amended race theorem applied to the concrete
`committingStore` (data `{x:2}`, rollback `{x:1}`, push `{x:3}`). -/
theorem C1_witness :
    getStatus (sourceDidFetchUpdates1 committingStore 7 (hash1 attrX 3)) 1 =
      READY ∧
    (sourceDidFetchUpdates1 committingStore 7 (hash1 attrX 3)).skToData 1 =
      some (mergeStep (hash1 attrX 2) (extendH (hash1 attrX 1) (hash1 attrX 3))) ∧
    getStatus (sourceDidCommitUpdate1
      (sourceDidFetchUpdates1 committingStore 7 (hash1 attrX 3)) 1) 1 =
      READY ||| OBSOLETE ∧
    (sourceDidCommitUpdate1
      (sourceDidFetchUpdates1 committingStore 7 (hash1 attrX 3)) 1).skToData 1 =
      some (mergeStep (hash1 attrX 2) (extendH (hash1 attrX 1) (hash1 attrX 3))) :=
  C1_race_push_clears_committing committingStore 7 1 (hash1 attrX 3)
    (hash1 attrX 1) (hash1 attrX 2) rfl rfl rfl rfl

/-! ## Claim C2: idempotence of the source callbacks -/

/-- C2 counterexample: `sourceDidCommitUpdate` is not idempotent.  On a
record that was `READY|COMMITTING`, one invocation leaves status `READY`;
repeating it makes the status table differ (`READY|OBSOLETE`). -/
theorem C2_counterexample :
    (sourceDidCommitUpdate1 (sourceDidCommitUpdate1 committingStore 1) 1
        ).skToStatus 1 = some (READY ||| OBSOLETE) ∧
    (sourceDidCommitUpdate1 committingStore 1).skToStatus 1 = some READY ∧
    (sourceDidCommitUpdate1 (sourceDidCommitUpdate1 committingStore 1) 1
        ).skToStatus 1 ≠
      (sourceDidCommitUpdate1 committingStore 1).skToStatus 1 := by
  decide

/-- C2 (amended): repeating `sourceDidCommitUpdate` on a store key that was
`READY|COMMITTING` agrees with the single invocation on the data table, the
committed and rollback snapshots and all three journals, but not on the
status table: the second invocation finds the record no longer COMMITTING
and adds OBSOLETE, so one call yields status `READY` and two calls yield
`READY|OBSOLETE`. -/
theorem C2_commit_update_not_idempotent (s : Store) (sk : Nat)
    (hst : s.skToStatus sk = some (READY ||| COMMITTING)) :
    (sourceDidCommitUpdate1 (sourceDidCommitUpdate1 s sk) sk).skToData =
      (sourceDidCommitUpdate1 s sk).skToData ∧
    (sourceDidCommitUpdate1 (sourceDidCommitUpdate1 s sk) sk).skToCommitted =
      (sourceDidCommitUpdate1 s sk).skToCommitted ∧
    (sourceDidCommitUpdate1 (sourceDidCommitUpdate1 s sk) sk).skToRollback =
      (sourceDidCommitUpdate1 s sk).skToRollback ∧
    (sourceDidCommitUpdate1 (sourceDidCommitUpdate1 s sk) sk).skToChanged =
      (sourceDidCommitUpdate1 s sk).skToChanged ∧
    (sourceDidCommitUpdate1 (sourceDidCommitUpdate1 s sk) sk).created =
      (sourceDidCommitUpdate1 s sk).created ∧
    (sourceDidCommitUpdate1 (sourceDidCommitUpdate1 s sk) sk).destroyed =
      (sourceDidCommitUpdate1 s sk).destroyed ∧
    getStatus (sourceDidCommitUpdate1 s sk) sk = READY ∧
    getStatus (sourceDidCommitUpdate1 (sourceDidCommitUpdate1 s sk) sk) sk =
      READY ||| OBSOLETE := by
  have hb : (2 : Nat) &&& 32 = 0 := by decide
  have hc : clearMask 34 32 = 2 := by decide
  simp [sourceDidCommitUpdate1, setObsolete, setStatus, getStatus, rawStatus,
    hst, mset_mset, hasBits, hb, hc, mset,
    READY, COMMITTING, OBSOLETE]

/-- C2 witness: the non-idempotence theorem applied to `committingStore`. -/
theorem C2_witness :
    (sourceDidCommitUpdate1 (sourceDidCommitUpdate1 committingStore 1) 1
        ).skToData = (sourceDidCommitUpdate1 committingStore 1).skToData ∧
    (sourceDidCommitUpdate1 (sourceDidCommitUpdate1 committingStore 1) 1
        ).skToCommitted =
      (sourceDidCommitUpdate1 committingStore 1).skToCommitted ∧
    (sourceDidCommitUpdate1 (sourceDidCommitUpdate1 committingStore 1) 1
        ).skToRollback =
      (sourceDidCommitUpdate1 committingStore 1).skToRollback ∧
    (sourceDidCommitUpdate1 (sourceDidCommitUpdate1 committingStore 1) 1
        ).skToChanged =
      (sourceDidCommitUpdate1 committingStore 1).skToChanged ∧
    (sourceDidCommitUpdate1 (sourceDidCommitUpdate1 committingStore 1) 1
        ).created = (sourceDidCommitUpdate1 committingStore 1).created ∧
    (sourceDidCommitUpdate1 (sourceDidCommitUpdate1 committingStore 1) 1
        ).destroyed = (sourceDidCommitUpdate1 committingStore 1).destroyed ∧
    getStatus (sourceDidCommitUpdate1 committingStore 1) 1 = READY ∧
    getStatus (sourceDidCommitUpdate1
      (sourceDidCommitUpdate1 committingStore 1) 1) 1 = READY ||| OBSOLETE :=
  C2_commit_update_not_idempotent committingStore 1 rfl

end Overture

namespace Overture

/-! ## Claim C3: transient update failure must re-queue the record -/

/-- C3: on a `READY|COMMITTING` record with a rollback snapshot,
`sourceDidNotUpdate` restores the committed snapshot from rollback, discards
the rollback, clears COMMITTING and sets DIRTY — but it never re-enters the
record into the `_skToChanged` journal, so the next `commitChanges` builds an
empty update batch: the record is *not* re-queued, contradicting the claim
and the method's own documentation ("the store will try again next time
commitChanges is called"). -/
theorem C3_failed_update_is_not_requeued :
    vread (((sourceDidNotUpdate1 committingStore 1).skToCommitted 1).getD
      hEmpty) attrX = some 1 ∧
    (sourceDidNotUpdate1 committingStore 1).skToRollback 1 = none ∧
    getStatus (sourceDidNotUpdate1 committingStore 1) 1 = READY ||| DIRTY ∧
    alookup (sourceDidNotUpdate1 committingStore 1).skToChanged 1 = none ∧
    (commitChanges (sourceDidNotUpdate1 committingStore 1)).2.map
      Changeset.updateSks = some [] ∧
    (commitChanges (sourceDidNotUpdate1 committingStore 1)).2.map
      Changeset.createSks = some [] ∧
    (commitChanges (sourceDidNotUpdate1 committingStore 1)).2.map
      Changeset.destroySks = some [] := by
  decide

/-! ## Claim C6: updateHash / revertHash round trip -/

def roundTripBase : Store := oneRecordStore (hash1 attrA 1) READY
def roundTripEdit : Store := (updateHash roundTripBase 1 (hash1 attrB 5) true).1
def roundTripRevert : Store := revertHash roundTripEdit 1

/-- C6: the round trip fails when the patch adds a new attribute key.  On a
clean READY record with data `{a:1}`, `updateHash(1, {b:5}, true)` followed
by `revertHash(1)` leaves `b = 5` in the data (the committed snapshot
`{a:1}` does not own `b`, and the revert only writes back the snapshot's own
keys), keeps DIRTY set, and keeps the committed snapshot and changed map —
contradicting the claim and `revertHash`'s documented contract of reverting
to the last committed state. -/
theorem C6_revert_misses_added_keys :
    vread ((roundTripRevert.skToData 1).getD hEmpty) attrB = some 5 ∧
    vread ((roundTripBase.skToData 1).getD hEmpty) attrB = none ∧
    hasBits (getStatus roundTripRevert 1) DIRTY = true ∧
    (roundTripRevert.skToCommitted 1).isSome = true ∧
    (alookup roundTripRevert.skToChanged 1).isSome = true := by
  decide

/-! ## Claim C8: discardChanges -/

/-- C8: `discardChanges` does empty all three journals and resets the status
to READY, but it restores a dirty record through the merging `setHash` path,
so an edit that *added* attribute `b` survives the discard: the final data
still owns `b = 5` while the pre-discard committed snapshot did not, and the
committed table is wiped, contradicting the claim's "data restored from its
committed snapshot" (spec: `data == committed`). -/
theorem C8_discard_leaves_added_keys :
    (discardChanges roundTripEdit).created = [] ∧
    (discardChanges roundTripEdit).destroyed = [] ∧
    (discardChanges roundTripEdit).skToChanged = [] ∧
    getStatus (discardChanges roundTripEdit) 1 = READY ∧
    vread (((discardChanges roundTripEdit)).skToData 1 |>.getD hEmpty) attrB =
      some 5 ∧
    vread ((roundTripEdit.skToCommitted 1).getD hEmpty) attrB = none ∧
    vread ((roundTripEdit.skToCommitted 1).getD hEmpty) attrA = some 1 := by
  decide

/-! ## Claim C7: destroy-ack protocol mismatch -/

/-- C7 counterexample: `sourceDidCommitDestroy` on a READY record (no
DESTROYED bit) logs the mismatch but does *not* leave the record untouched:
the record is set DESTROYED and unloaded, after which its data entry is gone
and its status reads EMPTY. -/
theorem C7_counterexample :
    (sourceDidCommitDestroy1 raceStore 1).log =
      [SOURCE_COMMIT_DESTROY_MISMATCH_ERROR] ∧
    ((sourceDidCommitDestroy1 raceStore 1).skToData 1).isSome = false ∧
    (raceStore.skToData 1).isSome = true ∧
    getStatus (sourceDidCommitDestroy1 raceStore 1) 1 = EMPTY ∧
    getStatus raceStore 1 = READY := by
  decide

/-- C7 (amended): when `sourceDidCommitDestroy` is invoked on a store key
whose status lacks the DESTROYED bit, the mismatch is logged, but the record
is nonetheless transitioned to DESTROYED and unloaded exactly like a matching
ack: for an unwatched typed record every table entry is removed and the
status reads EMPTY afterwards. -/
theorem C7_mismatch_still_destroys (s : Store) (sk : Nat)
    (hnd : hasBits (getStatus s sk) DESTROYED = false)
    (htype : s.skToType sk = true)
    (hobs : s.skToHasObservers sk = false) :
    (sourceDidCommitDestroy1 s sk).log =
      s.log ++ [SOURCE_COMMIT_DESTROY_MISMATCH_ERROR] ∧
    (sourceDidCommitDestroy1 s sk).skToStatus sk = none ∧
    (sourceDidCommitDestroy1 s sk).skToData sk = none ∧
    (sourceDidCommitDestroy1 s sk).skToType sk = false ∧
    getStatus (sourceDidCommitDestroy1 s sk) sk = EMPTY := by
  have h47 : (4 : Nat) &&& 7 = 4 := by decide
  rcases hstat : s.skToStatus sk with _ | st
  · simp [h47, sourceDidCommitDestroy1, hstat, getStatus, setStatus, hasBits,
      unloadRecord, mayUnloadRecord, clearMask, mset, bset, htype, hobs,
      EMPTY, READY, DESTROYED]
  · simp only [getStatus, hstat] at hnd
    by_cases hz : st = 0
    · rw [if_pos hz] at hnd
      simp [h47, sourceDidCommitDestroy1, hstat, hz, getStatus, setStatus, hasBits,
        unloadRecord, mayUnloadRecord, clearMask, mset, bset, htype, hobs,
        EMPTY, READY, DESTROYED]
    · rw [if_neg hz] at hnd
      have hne4 : st ≠ 4 := by
        intro h
        rw [h] at hnd
        exact absurd hnd (by decide)
      have h4 : st &&& 4 = 0 := by
        simpa [hasBits, DESTROYED] using hnd
      simp [h47, h4, sourceDidCommitDestroy1, hstat, hz, hne4, hnd, getStatus,
        setStatus, hasBits, unloadRecord, mayUnloadRecord, clearMask, mset,
        bset, htype, hobs, EMPTY, READY, DESTROYED]

/-- C7 witness: the amended mismatch theorem applied to a concrete READY
record. -/
theorem C7_witness :
    (sourceDidCommitDestroy1 raceStore 1).log =
      raceStore.log ++ [SOURCE_COMMIT_DESTROY_MISMATCH_ERROR] ∧
    (sourceDidCommitDestroy1 raceStore 1).skToStatus 1 = none ∧
    (sourceDidCommitDestroy1 raceStore 1).skToData 1 = none ∧
    (sourceDidCommitDestroy1 raceStore 1).skToType 1 = false ∧
    getStatus (sourceDidCommitDestroy1 raceStore 1) 1 = EMPTY :=
  C7_mismatch_still_destroys raceStore 1 (by decide) rfl rfl

end Overture

namespace Overture

/-! ## Claim C9: dirty write to a record that is not READY -/

/-- C9 counterexample: writing dirtily to an unknown (EMPTY) store key is
refused, but the data table is not left unchanged: the `current ||
(_skToData[sk] = {})` initialisation has already created an empty data entry
for the key by the time the status check fails. -/
theorem C9_counterexample :
    (updateHash raceStore 2 (hash1 attrA 1) true).2 = false ∧
    ((updateHash raceStore 2 (hash1 attrA 1) true).1.skToData 2).isSome =
      true ∧
    (raceStore.skToData 2).isSome = false := by
  decide

/-- C9 (amended): for every store key whose status lacks the READY bit, a
dirty `updateHash` logs the write-to-unready warning and returns false,
leaving the status table, committed snapshots and changed journal unchanged
and every attribute value unchanged; the only state effect is that a key
with no data entry gets the empty data hash entry that was created before
the check. -/
theorem C9_unready_write_refused (s : Store) (sk : Nat) (p : Hash)
    (hnr : hasBits (getStatus s sk) READY = false) :
    (updateHash s sk p true).2 = false ∧
    (updateHash s sk p true).1.log =
      s.log ++ [CANNOT_WRITE_TO_UNREADY_RECORD_ERROR] ∧
    (updateHash s sk p true).1.skToStatus = s.skToStatus ∧
    (updateHash s sk p true).1.skToCommitted = s.skToCommitted ∧
    (updateHash s sk p true).1.skToChanged = s.skToChanged ∧
    (updateHash s sk p true).1.skToData =
      mset s.skToData sk (some ((s.skToData sk).getD hEmpty)) := by
  have h1 : getStatus s sk ≠ READY ||| NEW := by
    intro h
    rw [h] at hnr
    exact absurd hnr (by decide)
  simp [updateHash, h1, hnr]

/-- C9 witness: the refusal theorem applied to an unknown store key of a
concrete store. -/
theorem C9_witness :
    (updateHash raceStore 2 (hash1 attrA 1) true).2 = false ∧
    (updateHash raceStore 2 (hash1 attrA 1) true).1.log =
      raceStore.log ++ [CANNOT_WRITE_TO_UNREADY_RECORD_ERROR] ∧
    (updateHash raceStore 2 (hash1 attrA 1) true).1.skToStatus =
      raceStore.skToStatus ∧
    (updateHash raceStore 2 (hash1 attrA 1) true).1.skToCommitted =
      raceStore.skToCommitted ∧
    (updateHash raceStore 2 (hash1 attrA 1) true).1.skToChanged =
      raceStore.skToChanged ∧
    (updateHash raceStore 2 (hash1 attrA 1) true).1.skToData =
      mset raceStore.skToData 2 (some ((raceStore.skToData 2).getD hEmpty)) :=
  C9_unready_write_refused raceStore 2 (hash1 attrA 1) (by decide)

/-! ## Claim C10: createRecord bypasses setStatus -/

/-- C10: `createRecord` on an EMPTY or DESTROYED store key writes `READY|NEW`
directly into the status table instead of going through `setStatus`, so it
fires no status notification (the status-event log is unchanged) even though
the status did change; by contrast every status transition that goes through
`setStatus` with a genuinely new value appends a notification event. -/
theorem C10_createRecord_fires_no_status_event (s : Store) (sk : Nat)
    (d : Hash) (h : getStatus s sk = EMPTY ∨ getStatus s sk = DESTROYED) :
    (createRecord s sk d).statusEvents = s.statusEvents ∧
    getStatus (createRecord s sk d) sk = READY ||| NEW ∧
    (∀ t : Store, ∀ k st : Nat, getStatus t k ≠ st →
      (setStatus t k st).statusEvents =
        t.statusEvents ++ [(k, getStatus t k, st)]) := by
  refine ⟨?_, ?_, ?_⟩
  · rcases h with h | h <;> simp [createRecord, h, EMPTY, DESTROYED]
  · rcases h with h | h <;>
      simp [createRecord, h, EMPTY, DESTROYED, READY, NEW] <;>
      simp [getStatus, mset_self]
  · intro t k st hne
    simp [setStatus, hne]

/-- C10 witness: creating a record on a fresh (EMPTY) store key of a concrete
store fires no status event while the status becomes `READY|NEW`, and a
`setStatus` transition does append an event. -/
theorem C10_witness :
    (createRecord raceStore 2 (hash1 attrA 1)).statusEvents =
      raceStore.statusEvents ∧
    getStatus (createRecord raceStore 2 (hash1 attrA 1)) 2 = READY ||| NEW ∧
    (∀ t : Store, ∀ k st : Nat, getStatus t k ≠ st →
      (setStatus t k st).statusEvents =
        t.statusEvents ++ [(k, getStatus t k, st)]) :=
  C10_createRecord_fires_no_status_event raceStore 2 (hash1 attrA 1)
    (by decide)

end Overture

namespace Overture

@[simp]
theorem alookup_aset_self (l : ChangedJournal) (k : Nat) (v : Changed) :
    alookup (aset l k v) k = some v := by
  induction l with
  | nil => simp [aset, alookup]
  | cons p rest ih =>
      by_cases h : k = p.1
      · simp [aset, alookup, h]
      · simp [aset, alookup, h, ih]

/-! ## Claim C4: rebase of local edits over a server update (spec S3) -/

/-- C4: for a READY record with DIRTY set (committed snapshot and changed
map present, not COMMITTING), when `sourceDidFetchUpdates` delivers an
update for its id and `rebaseConflicts` is on, with
`upd2 = merge(committed, update)`: every locally-changed attribute of the
data whose local value differs from `upd2` stays at its local value and is
marked changed; every other attribute of the data takes the `upd2` value;
and since a dirty edit survives, afterwards `committed = upd2`, the data is
the rebased hash, the changed journal holds exactly the surviving dirty
flags, and the status is `READY|DIRTY`. -/
theorem C4_rebase_applies_local_edits (s : Store) (id sk st : Nat)
    (upd c d : Hash) (ch : Changed)
    (hid : s.idToSk id = some sk)
    (hst : s.skToStatus sk = some st)
    (hR : hasBits st READY = true)
    (hD : hasBits st DIRTY = true)
    (hC : hasBits st COMMITTING = false)
    (hc : s.skToCommitted sk = some c)
    (hch : alookup s.skToChanged sk = some ch)
    (hd : s.skToData sk = some d)
    (hrc : s.rebaseConflicts = true)
    (hsurv : ∃ k, (d k).isSome ∧ (ch k).isSome ∧
      vread d k ≠ vread (extendH c upd) k) :
    (sourceDidFetchUpdates1 s id upd).skToData sk =
      some (mergeStep d (rebaseData d ch (extendH c upd))) ∧
    (∀ k, mergeStep d (rebaseData d ch (extendH c upd)) k =
      rebaseData d ch (extendH c upd) k) ∧
    (sourceDidFetchUpdates1 s id upd).skToCommitted sk =
      some (extendH c upd) ∧
    alookup (sourceDidFetchUpdates1 s id upd).skToChanged sk =
      some (rebaseChanged d ch (extendH c upd)) ∧
    getStatus (sourceDidFetchUpdates1 s id upd) sk = READY ||| DIRTY ∧
    (∀ k, (d k).isSome → (ch k).isSome →
      vread d k ≠ vread (extendH c upd) k →
        rebaseData d ch (extendH c upd) k = d k ∧
        rebaseChanged d ch (extendH c upd) k = some true) ∧
    (∀ k, (d k).isSome → (ch k).isSome = false →
      rebaseData d ch (extendH c upd) k = some (vread (extendH c upd) k) ∧
      rebaseChanged d ch (extendH c upd) k = none) ∧
    (∀ k, (d k).isSome → (ch k).isSome →
      vread d k = vread (extendH c upd) k →
        vread (rebaseData d ch (extendH c upd)) k =
          vread (extendH c upd) k ∧
        rebaseChanged d ch (extendH c upd) k = none) := by
  have hdec : decide (∃ k, rebaseChanged d ch (extendH c upd) k = some true) =
      true := by
    rcases hsurv with ⟨k, h1, h2, h3⟩
    exact decide_eq_true ⟨k, by simp [rebaseChanged, h1, h2, h3]⟩
  refine ⟨?_, ?_, ?_, ?_, ?_, ?_, ?_, ?_⟩
  · simp [sourceDidFetchUpdates1, hid, rawStatus, hst, hR, hD, hC, hc, hch,
      hd, hrc, hdec, setHashClean, updateHash, mset_mset, mset_self]
  · intro k
    cases hdk : d k with
    | none => simp [mergeStep, rebaseData, hdk]
    | some v =>
        by_cases hck : (ch k).isSome
        · simp [mergeStep, rebaseData, hdk, hck, vread]
        · simp only [mergeStep, rebaseData, hdk, hck, vread, Option.getD_some,
            if_false, Bool.false_eq_true]
          split
          · rfl
          · next h =>
              rw [not_not] at h
              rw [h]
  · simp [sourceDidFetchUpdates1, hid, rawStatus, hst, hR, hD, hC, hc, hch,
      hd, hrc, hdec, setHashClean, updateHash, mset_mset, mset_self]
  · simp [sourceDidFetchUpdates1, hid, rawStatus, hst, hR, hD, hC, hc, hch,
      hd, hrc, hdec, setHashClean, updateHash, mset_mset, mset_self,
      alookup_aset_self]
  · simp [sourceDidFetchUpdates1, hid, rawStatus, hst, hR, hD, hC, hc, hch,
      hd, hrc, hdec, setHashClean, updateHash, mset_mset, mset_self]
    exact getStatus_setStatus_self _ _ _ (by decide)
  · intro k h1 h2 h3
    constructor
    · cases hdk : d k with
      | none => rw [hdk] at h1; exact absurd h1 (by decide)
      | some v => simp [rebaseData, hdk, h2]
    · simp [rebaseChanged, h1, h2, h3]
  · intro k h1 h2
    constructor
    · cases hdk : d k with
      | none => rw [hdk] at h1; exact absurd h1 (by decide)
      | some v => simp [rebaseData, hdk, h2]
    · simp [rebaseChanged, h2]
  · intro k h1 h2 h3
    constructor
    · cases hdk : d k with
      | none => rw [hdk] at h1; exact absurd h1 (by decide)
      | some v =>
          rw [vread, hdk] at h3
          simp only [Option.getD_some] at h3
          simp [rebaseData, hdk, h2, vread, h3]
    · simp [rebaseChanged, h3]

end Overture

namespace Overture

def s3changedMap : Changed := fun k => if k = attrA then some true else none

/-- The spec's S3 starting point: data `{a:2,b:1}`, committed `{a:1,b:1}`,
changed `{a:true}`, status `READY|DIRTY`, rebaseConflicts on. -/
def rebaseStore : Store :=
  { oneRecordStore (hash2 attrA 2 attrB 1) (READY ||| DIRTY) with
    skToCommitted := mset (fun _ => none) 1 (some (hash2 attrA 1 attrB 1))
    skToChanged := [(1, s3changedMap)] }

/-- C4 witness: the rebase theorem applied to the spec's S3 scenario
(`sourceDidFetchUpdates(T, {id: {b:9}})`), together with the concrete S3
expectations: data `{a:2,b:9}`, committed `{a:1,b:9}`, changed `{a:true}`. -/
theorem C4_witness :
    ((sourceDidFetchUpdates1 rebaseStore 7 (hash1 attrB 9)).skToData 1 =
      some (mergeStep (hash2 attrA 2 attrB 1)
        (rebaseData (hash2 attrA 2 attrB 1) s3changedMap
          (extendH (hash2 attrA 1 attrB 1) (hash1 attrB 9)))) ∧
    (∀ k, mergeStep (hash2 attrA 2 attrB 1)
        (rebaseData (hash2 attrA 2 attrB 1) s3changedMap
          (extendH (hash2 attrA 1 attrB 1) (hash1 attrB 9))) k =
      rebaseData (hash2 attrA 2 attrB 1) s3changedMap
        (extendH (hash2 attrA 1 attrB 1) (hash1 attrB 9)) k) ∧
    (sourceDidFetchUpdates1 rebaseStore 7 (hash1 attrB 9)).skToCommitted 1 =
      some (extendH (hash2 attrA 1 attrB 1) (hash1 attrB 9)) ∧
    alookup (sourceDidFetchUpdates1 rebaseStore 7 (hash1 attrB 9)).skToChanged
        1 =
      some (rebaseChanged (hash2 attrA 2 attrB 1) s3changedMap
        (extendH (hash2 attrA 1 attrB 1) (hash1 attrB 9))) ∧
    getStatus (sourceDidFetchUpdates1 rebaseStore 7 (hash1 attrB 9)) 1 =
      READY ||| DIRTY ∧
    (∀ k, ((hash2 attrA 2 attrB 1) k).isSome → (s3changedMap k).isSome →
      vread (hash2 attrA 2 attrB 1) k ≠
          vread (extendH (hash2 attrA 1 attrB 1) (hash1 attrB 9)) k →
        rebaseData (hash2 attrA 2 attrB 1) s3changedMap
            (extendH (hash2 attrA 1 attrB 1) (hash1 attrB 9)) k =
          (hash2 attrA 2 attrB 1) k ∧
        rebaseChanged (hash2 attrA 2 attrB 1) s3changedMap
            (extendH (hash2 attrA 1 attrB 1) (hash1 attrB 9)) k =
          some true) ∧
    (∀ k, ((hash2 attrA 2 attrB 1) k).isSome →
      (s3changedMap k).isSome = false →
        rebaseData (hash2 attrA 2 attrB 1) s3changedMap
            (extendH (hash2 attrA 1 attrB 1) (hash1 attrB 9)) k =
          some (vread (extendH (hash2 attrA 1 attrB 1) (hash1 attrB 9)) k) ∧
        rebaseChanged (hash2 attrA 2 attrB 1) s3changedMap
            (extendH (hash2 attrA 1 attrB 1) (hash1 attrB 9)) k = none) ∧
    (∀ k, ((hash2 attrA 2 attrB 1) k).isSome → (s3changedMap k).isSome →
      vread (hash2 attrA 2 attrB 1) k =
          vread (extendH (hash2 attrA 1 attrB 1) (hash1 attrB 9)) k →
        vread (rebaseData (hash2 attrA 2 attrB 1) s3changedMap
            (extendH (hash2 attrA 1 attrB 1) (hash1 attrB 9))) k =
          vread (extendH (hash2 attrA 1 attrB 1) (hash1 attrB 9)) k ∧
        rebaseChanged (hash2 attrA 2 attrB 1) s3changedMap
            (extendH (hash2 attrA 1 attrB 1) (hash1 attrB 9)) k = none)) ∧
    vread (((sourceDidFetchUpdates1 rebaseStore 7 (hash1 attrB 9)).skToData 1
        ).getD hEmpty) attrA = some 2 ∧
    vread (((sourceDidFetchUpdates1 rebaseStore 7 (hash1 attrB 9)).skToData 1
        ).getD hEmpty) attrB = some 9 ∧
    vread (((sourceDidFetchUpdates1 rebaseStore 7 (hash1 attrB 9)
        ).skToCommitted 1).getD hEmpty) attrA = some 1 ∧
    vread (((sourceDidFetchUpdates1 rebaseStore 7 (hash1 attrB 9)
        ).skToCommitted 1).getD hEmpty) attrB = some 9 ∧
    ((alookup (sourceDidFetchUpdates1 rebaseStore 7 (hash1 attrB 9)
        ).skToChanged 1).getD chEmpty) attrA = some true ∧
    ((alookup (sourceDidFetchUpdates1 rebaseStore 7 (hash1 attrB 9)
        ).skToChanged 1).getD chEmpty) attrB = none :=
  ⟨C4_rebase_applies_local_edits rebaseStore 7 1 (READY ||| DIRTY)
    (hash1 attrB 9) (hash2 attrA 1 attrB 1) (hash2 attrA 2 attrB 1)
    s3changedMap rfl rfl (by decide) (by decide) (by decide) rfl rfl rfl rfl
    ⟨attrA, by decide, by decide, by decide⟩,
   by decide, by decide, by decide, by decide, by decide, by decide⟩

end Overture

namespace Overture

/-! ## Claim C5: exactly one core-state bit, an invariant of every operation

`oneCore st` says the low nibble of the status holds exactly one of the four
core-state bits.  The invariant is proved for all states reachable from the
initial store by the store's operations; the induction needs a slightly
stronger store well-formedness (`StoreWF`), because the one-core property of
a status *write* in `commitChanges` depends on the changed journal pointing
at records that still have a well-formed status entry. -/

def oneCore (st : Nat) : Prop :=
  st &&& 15 = EMPTY ∨ st &&& 15 = READY ∨ st &&& 15 = DESTROYED ∨
    st &&& 15 = NON_EXISTENT

theorem and15_lor (a b : Nat) :
    (a ||| b) &&& 15 = (a &&& 15) ||| (b &&& 15) := by
  apply Nat.eq_of_testBit_eq
  intro i
  simp only [Nat.testBit_land, Nat.testBit_lor]
  cases a.testBit i <;> cases b.testBit i <;> cases (15 : Nat).testBit i <;>
    simp

theorem lor_and15 (a b : Nat) (h : b &&& 15 = 0) :
    (a ||| b) &&& 15 = a &&& 15 := by
  rw [and15_lor, h]
  simp

theorem clearMask_and15 (a m : Nat) (h : m &&& 15 = 0) :
    clearMask a m &&& 15 = a &&& 15 := by
  apply Nat.eq_of_testBit_eq
  intro i
  have hm : (m &&& 15).testBit i = false := by
    rw [h]
    exact Nat.zero_testBit i
  simp only [Nat.testBit_land] at hm
  simp only [clearMask, Nat.testBit_land, Nat.testBit_xor]
  cases h15 : (15 : Nat).testBit i
  · simp
  · rw [h15] at hm
    simp only [Bool.and_true] at hm
    rw [hm]
    cases a.testBit i <;> simp

theorem land_and15 (a m : Nat) (h : m &&& 15 = 0) :
    (a &&& m) &&& 15 = 0 := by
  rw [Nat.land_assoc, h]
  simp

theorem oneCore_or (st m : Nat) (h : oneCore st) (hm : m &&& 15 = 0) :
    oneCore (st ||| m) := by
  unfold oneCore at h ⊢
  rw [lor_and15 st m hm]
  exact h

theorem oneCore_clear (st m : Nat) (h : oneCore st) (hm : m &&& 15 = 0) :
    oneCore (clearMask st m) := by
  unfold oneCore at h ⊢
  rw [clearMask_and15 st m hm]
  exact h

theorem oneCore_or_masked (c st m : Nat) (h : oneCore c) (hm : m &&& 15 = 0) :
    oneCore (c ||| (st &&& m)) :=
  oneCore_or c (st &&& m) h (land_and15 st m hm)

theorem oneCore_ne_zero (st : Nat) (h : oneCore st) : st ≠ 0 := by
  intro h0
  rw [h0] at h
  rcases h with h | h | h | h <;> exact absurd h (by decide)

/-- Every stored status has exactly one core bit. -/
def StatusWF (s : Store) : Prop :=
  ∀ k st, s.skToStatus k = some st → oneCore st

/-- Typed store keys were allocated by the key registry, which hands out
keys below the generator. -/
def TypeFresh (s : Store) : Prop :=
  ∀ k, s.skToType k = true → k < s.nextSk

/-- A changed-journal entry for a still-typed record has a status entry
(commitChanges reads it raw when building the update batch). -/
def ChangedTyped (s : Store) : Prop :=
  ∀ p ∈ s.skToChanged, s.skToType p.1 = true →
    ∃ st, s.skToStatus p.1 = some st ∧ oneCore st

/-- A changed-journal entry either has a status entry or sits below the key
generator (so the registry can never re-type it). -/
def EntryOK (s : Store) : Prop :=
  ∀ p ∈ s.skToChanged,
    (∃ st, s.skToStatus p.1 = some st ∧ oneCore st) ∨ p.1 < s.nextSk

def StoreWF (s : Store) : Prop :=
  StatusWF s ∧ TypeFresh s ∧ ChangedTyped s ∧ EntryOK s

theorem oneCore_getStatus (s : Store) (h : StatusWF s) (k : Nat) :
    oneCore (getStatus s k) := by
  unfold getStatus
  cases hk : s.skToStatus k with
  | none => exact Or.inl rfl
  | some st =>
      have h1 := h k st hk
      show oneCore (if st = 0 then EMPTY else st)
      rw [if_neg (oneCore_ne_zero st h1)]
      exact h1

end Overture

namespace Overture

theorem mem_adel (l : ChangedJournal) (k : Nat) (p : Nat × Changed)
    (h : p ∈ adel l k) : p ∈ l :=
  (List.mem_filter.mp h).1

theorem mem_aset (l : ChangedJournal) (k : Nat) (v : Changed)
    (p : Nat × Changed) (h : p ∈ aset l k v) : p.1 = k ∨ p ∈ l := by
  induction l with
  | nil =>
      simp only [aset, List.mem_singleton] at h
      subst h
      exact Or.inl rfl
  | cons q rest ih =>
      by_cases hk : k = q.1
      · rw [aset] at h
        rw [if_pos hk] at h
        rcases List.mem_cons.mp h with h1 | h1
        · subst h1
          exact Or.inl hk.symm
        · exact Or.inr (List.mem_cons_of_mem q h1)
      · rw [aset] at h
        rw [if_neg hk] at h
        rcases List.mem_cons.mp h with h1 | h1
        · subst h1
          exact Or.inr (List.mem_cons_self q rest)
        · rcases ih h1 with h2 | h2
          · exact Or.inl h2
          · exact Or.inr (List.mem_cons_of_mem q h2)

/-- The workhorse preservation lemma: a step that keeps the type table and
the key generator, only ever (re)writes one-core statuses, and only adds
changed-journal entries for keys it gave a status entry preserves the
well-formedness. -/
theorem StoreWF_step (s t : Store)
    (hty : ∀ k, t.skToType k = s.skToType k)
    (hnx : t.nextSk = s.nextSk)
    (hst : ∀ k, t.skToStatus k = s.skToStatus k ∨
      ∃ u, t.skToStatus k = some u ∧ oneCore u)
    (hch : ∀ p ∈ t.skToChanged, p ∈ s.skToChanged ∨
      ∃ u, t.skToStatus p.1 = some u ∧ oneCore u)
    (h : StoreWF s) : StoreWF t := by
  obtain ⟨hS, hT, hC, hE⟩ := h
  refine ⟨?_, ?_, ?_, ?_⟩
  · intro k st hk
    rcases hst k with h1 | ⟨u, h1, h2⟩
    · exact hS k st (h1 ▸ hk)
    · rw [h1] at hk
      injection hk with hk
      exact hk ▸ h2
  · intro k hk
    rw [hnx]
    exact hT k (hty k ▸ hk)
  · intro p hp _
    rcases hch p hp with h1 | h1
    · rcases hst p.1 with h2 | ⟨u, h2, h3⟩
      · rcases hE p h1 with ⟨st, h4, h5⟩ | h4
        · exact ⟨st, h2 ▸ h4, h5⟩
        · rcases hst p.1 with h5 | ⟨u, h5, h6⟩
          · rcases hC p h1 (hty p.1 ▸ (by assumption)) with ⟨st, h7, h8⟩
            exact ⟨st, h5 ▸ h7, h8⟩
          · exact ⟨u, h5, h6⟩
      · exact ⟨u, h2, h3⟩
    · exact h1
  · intro p hp
    rcases hch p hp with h1 | h1
    · rcases hE p h1 with ⟨st, h2, h3⟩ | h2
      · rcases hst p.1 with h4 | ⟨u, h4, h5⟩
        · exact Or.inl ⟨st, h4 ▸ h2, h3⟩
        · exact Or.inl ⟨u, h4, h5⟩
      · exact Or.inr (hnx ▸ h2)
    · exact Or.inl h1

theorem status_present_of_ready (s : Store) (k : Nat)
    (h : hasBits (getStatus s k) READY = true) :
    ∃ st, s.skToStatus k = some st := by
  cases hk : s.skToStatus k with
  | some st => exact ⟨st, rfl⟩
  | none =>
      exfalso
      simp only [getStatus, hk] at h
      exact absurd h (by decide)

theorem StoreWF_setStatus (s : Store) (sk st : Nat) (h : StoreWF s)
    (hc : oneCore st) : StoreWF (setStatus s sk st) := by
  refine StoreWF_step s _ (by simp) (by simp) ?_ ?_ h
  · intro k
    rw [skToStatus_setStatus]
    by_cases heq : getStatus s sk = st
    · rw [if_pos heq]
      exact Or.inl rfl
    · rw [if_neg heq]
      by_cases hk : k = sk
      · subst hk
        rw [mset_self]
        exact Or.inr ⟨st, rfl, hc⟩
      · rw [mset_ne _ _ hk]
        exact Or.inl rfl
  · intro p hp
    rw [skToChanged_setStatus] at hp
    exact Or.inl hp

theorem StoreWF_setDirty (s : Store) (sk : Nat) (h : StoreWF s) :
    StoreWF (setDirty s sk) :=
  StoreWF_setStatus s sk _ h
    (oneCore_or _ _ (oneCore_getStatus s h.1 sk) (by decide))

theorem StoreWF_setLoading (s : Store) (sk : Nat) (h : StoreWF s) :
    StoreWF (setLoading s sk) :=
  StoreWF_setStatus s sk _ h
    (oneCore_or _ _ (oneCore_getStatus s h.1 sk) (by decide))

theorem StoreWF_setCommitting (s : Store) (sk : Nat) (h : StoreWF s) :
    StoreWF (setCommitting s sk) :=
  StoreWF_setStatus s sk _ h
    (oneCore_or _ _ (oneCore_getStatus s h.1 sk) (by decide))

theorem StoreWF_setObsolete (s : Store) (sk : Nat) (h : StoreWF s) :
    StoreWF (setObsolete s sk) :=
  StoreWF_setStatus s sk _ h
    (oneCore_or _ _ (oneCore_getStatus s h.1 sk) (by decide))

end Overture

namespace Overture

theorem skToStatus_setStatus_present (s : Store) (sk st : Nat)
    (hpres : ∃ u, s.skToStatus sk = some u ∧ oneCore u) (hst : oneCore st) :
    ∃ u, (setStatus s sk st).skToStatus sk = some u ∧ oneCore u := by
  rw [skToStatus_setStatus]
  split
  · exact hpres
  · exact ⟨st, mset_self _ _ _, hst⟩

theorem StoreWF_updateHash (s : Store) (sk : Nat) (p : Hash) (b : Bool)
    (h : StoreWF s) : StoreWF (updateHash s sk p b).1 := by
  simp only [updateHash]
  repeat' split
  all_goals
    first
    | exact StoreWF_step s _ (fun k => rfl) rfl (fun k => Or.inl rfl)
        (fun q hq => Or.inl hq) h
    | skip
  case isTrue.isTrue.isFalse.isTrue h1 h2 h3 h4 => exact absurd h2 (by simp)
  case isTrue.isTrue.isFalse.isFalse h1 h2 h3 h4 => exact absurd h2 (by simp)
  case isFalse.isTrue.isFalse.isTrue h1 h2 h3 h4 =>
    rw [Bool.not_eq_false] at h3
    obtain ⟨st0, hst0⟩ := status_present_of_ready s sk h3
    have hoc : oneCore st0 := h.1 sk st0 hst0
    apply StoreWF_setDirty
    refine StoreWF_step s _ (fun k => rfl) rfl (fun k => Or.inl rfl) ?_ h
    intro q hq
    rcases mem_aset _ _ _ _ hq with h5 | h5
    · exact Or.inr ⟨st0, by rw [h5]; exact hst0, hoc⟩
    · exact Or.inl h5
  case isFalse.isTrue.isFalse.isFalse h1 h2 h3 h4 =>
    rw [Bool.not_eq_false] at h3
    obtain ⟨st0, hst0⟩ := status_present_of_ready s sk h3
    have hoc : oneCore st0 := h.1 sk st0 hst0
    refine StoreWF_step (setStatus _ sk (clearMask (getStatus s sk) DIRTY)) _
      (fun k => by simp) (by simp) (fun k => Or.inl rfl) ?_ ?_
    · intro q hq
      exact Or.inl (mem_adel _ _ _ hq)
    · apply StoreWF_setStatus
      · refine StoreWF_step s _ (fun k => rfl) rfl (fun k => Or.inl rfl) ?_ h
        intro q hq
        rcases mem_aset _ _ _ _ hq with h5 | h5
        · exact Or.inr ⟨st0, by rw [h5]; exact hst0, hoc⟩
        · exact Or.inl h5
      · exact oneCore_clear _ _ (oneCore_getStatus s h.1 sk) (by decide)


theorem StoreWF_setHashClean (s : Store) (sk : Nat) (d : Hash)
    (h : StoreWF s) : StoreWF (setHashClean s sk d) :=
  StoreWF_updateHash s sk d false h

theorem StoreWF_revertHash (s : Store) (sk : Nat) (h : StoreWF s) :
    StoreWF (revertHash s sk) := by
  rw [revertHash]
  split
  · exact StoreWF_updateHash _ _ _ _ h
  · exact h

theorem StoreWF_getStoreKeyOp (s : Store) (id : Option Nat) (h : StoreWF s) :
    StoreWF (getStoreKeyOp s id).1 := by
  rw [getStoreKeyOp]
  split
  · exact h
  · obtain ⟨hS, hT, hC, hE⟩ := h
    refine ⟨fun k st hk => hS k st hk, ?_, ?_, ?_⟩
    · intro k hk
      show k < s.nextSk + 1
      have hk2 : bset s.skToType s.nextSk true k = true := hk
      by_cases hks : k = s.nextSk
      · omega
      · simp only [bset] at hk2
        rw [if_neg hks] at hk2
        exact Nat.lt_succ_of_lt (hT k hk2)
    · intro p hp htype
      by_cases hks : p.1 = s.nextSk
      · rcases hE p hp with ⟨st, h1, h2⟩ | h1
        · exact ⟨st, h1, h2⟩
        · exact absurd h1 (by omega)
      · have htype2 : s.skToType p.1 = true := by
          have htype3 : bset s.skToType s.nextSk true p.1 = true := htype
          simp only [bset] at htype3
          rw [if_neg hks] at htype3
          exact htype3
        exact hC p hp htype2
    · intro p hp
      rcases hE p hp with ⟨st, h1, h2⟩ | h1
      · exact Or.inl ⟨st, h1, h2⟩
      · refine Or.inr ?_
        show p.1 < s.nextSk + 1
        omega

theorem StoreWF_unloadRecord (s : Store) (sk : Nat) (h : StoreWF s) :
    StoreWF (unloadRecord s sk).1 := by
  rw [unloadRecord]
  split
  · exact h
  · split
    · exact h
    · next hmay htype =>
      rw [Bool.not_eq_false] at htype
      obtain ⟨hS, hT, hC, hE⟩ := h
      have hlt : sk < s.nextSk := hT sk htype
      refine ⟨?_, ?_, ?_, ?_⟩
      · intro k st hk
        have hk2 : mset s.skToStatus sk none k = some st := hk
        by_cases hks : k = sk
        · subst hks
          rw [mset_self] at hk2
          cases hk2
        · rw [mset_ne _ _ hks] at hk2
          exact hS k st hk2
      · intro k hk
        have hk2 : bset s.skToType sk false k = true := hk
        show k < s.nextSk
        by_cases hks : k = sk
        · subst hks
          rw [bset_self] at hk2
          cases hk2
        · simp only [bset] at hk2
          rw [if_neg hks] at hk2
          exact hT k hk2
      · intro p hp htp
        by_cases hks : p.1 = sk
        · have htp2 : bset s.skToType sk false p.1 = true := htp
          rw [hks, bset_self] at htp2
          cases htp2
        · have htp2 : bset s.skToType sk false p.1 = true := htp
          simp only [bset] at htp2
          rw [if_neg hks] at htp2
          obtain ⟨st, h1, h2⟩ := hC p hp htp2
          refine ⟨st, ?_, h2⟩
          show mset s.skToStatus sk none p.1 = some st
          rw [mset_ne _ _ hks]
          exact h1
      · intro p hp
        by_cases hks : p.1 = sk
        · refine Or.inr ?_
          show p.1 < s.nextSk
          omega
        · rcases hE p hp with ⟨st, h1, h2⟩ | h1
          · refine Or.inl ⟨st, ?_, h2⟩
            show mset s.skToStatus sk none p.1 = some st
            rw [mset_ne _ _ hks]
            exact h1
          · exact Or.inr h1

theorem StoreWF_createRecord (s : Store) (sk : Nat) (d : Hash)
    (h : StoreWF s) : StoreWF (createRecord s sk d) := by
  rw [createRecord]
  split
  · exact StoreWF_step s _ (fun k => rfl) rfl (fun k => Or.inl rfl)
      (fun q hq => Or.inl hq) h
  · refine StoreWF_step s _ (fun k => rfl) rfl ?_ (fun q hq => Or.inl hq) h
    intro k
    by_cases hks : k = sk
    · subst hks
      exact Or.inr ⟨READY ||| NEW, mset_self _ _ _, by unfold oneCore; decide⟩
    · exact Or.inl (mset_ne _ _ hks)

theorem StoreWF_fetchHash (s : Store) (sk : Nat) (h : StoreWF s) :
    StoreWF (fetchHash s sk) := by
  rw [fetchHash]
  repeat' split
  · exact h
  · exact h
  · exact StoreWF_setStatus s sk _ h (by unfold oneCore; decide)
  · exact StoreWF_setLoading s sk h

theorem StoreWF_setIdForStoreKey (s : Store) (sk id : Nat) (h : StoreWF s) :
    StoreWF (setIdForStoreKey s sk id) := by
  simp only [setIdForStoreKey]
  split
  · exact h
  · split
    · exact h
    · apply StoreWF_updateHash
      exact StoreWF_step s _ (fun k => rfl) rfl (fun k => Or.inl rfl)
        (fun q hq => Or.inl hq) h

theorem StoreWF_destroyRecord (s : Store) (sk : Nat) (h : StoreWF s) :
    StoreWF (destroyRecord s sk) := by
  rw [destroyRecord]
  split
  · apply StoreWF_unloadRecord
    apply StoreWF_setStatus _ _ _ _ (by unfold oneCore; decide)
    exact StoreWF_step s _ (fun k => rfl) rfl (fun k => Or.inl rfl)
      (fun q hq => Or.inl hq) h
  · by_cases hd : hasBits (getStatus s sk) DIRTY = true
    · rw [if_pos hd]
      apply StoreWF_setStatus _ _ _ _
        (oneCore_or_masked _ _ _ (by unfold oneCore; decide) (by decide))
      refine StoreWF_step (setHashClean s sk ((s.skToCommitted sk).getD hEmpty))
        _ (fun k => rfl) rfl (fun k => Or.inl rfl) ?_
        (StoreWF_setHashClean s sk _ h)
      intro q hq
      exact Or.inl (mem_adel _ _ _ hq)
    · rw [if_neg hd]
      apply StoreWF_setStatus _ _ _ _
        (oneCore_or_masked _ _ _ (by unfold oneCore; decide) (by decide))
      exact StoreWF_step s _ (fun k => rfl) rfl (fun k => Or.inl rfl)
        (fun q hq => Or.inl hq) h

/-- Auxiliary: a step that keeps the type table and key generator and never
deletes a status entry. -/
def PresMono (s t : Store) : Prop :=
  (∀ k, t.skToType k = s.skToType k) ∧ t.nextSk = s.nextSk ∧
  (∀ k st, s.skToStatus k = some st → ∃ u, t.skToStatus k = some u)

theorem PresMono_refl (s : Store) : PresMono s s :=
  ⟨fun _ => rfl, rfl, fun _ st h => ⟨st, h⟩⟩

theorem PresMono_trans (s t u : Store) (h1 : PresMono s t)
    (h2 : PresMono t u) : PresMono s u := by
  obtain ⟨a1, b1, c1⟩ := h1
  obtain ⟨a2, b2, c2⟩ := h2
  refine ⟨fun k => (a2 k).trans (a1 k), b2.trans b1, ?_⟩
  intro k st h
  obtain ⟨v, hv⟩ := c1 k st h
  exact c2 k v hv

theorem PresMono_setStatus (s : Store) (sk st : Nat) :
    PresMono s (setStatus s sk st) := by
  refine ⟨fun k => by simp, by simp, ?_⟩
  intro k u hu
  rw [skToStatus_setStatus]
  split
  · exact ⟨u, hu⟩
  · by_cases hk : k = sk
    · subst hk
      exact ⟨st, mset_self _ _ _⟩
    · rw [mset_ne _ _ hk]
      exact ⟨u, hu⟩

theorem StoreWF_commitCreatedLoop (l : List Nat) :
    ∀ (s : Store) (ch : Changeset), StoreWF s →
      StoreWF (commitCreatedLoop s l ch).1 := by
  induction l with
  | nil => intro s ch h; exact h
  | cons sk rest ih =>
      intro s ch h
      rw [commitCreatedLoop]
      split
      · exact h
      · exact ih _ _ (StoreWF_setCommitting s sk h)

theorem PresMono_commitCreatedLoop (l : List Nat) :
    ∀ (s : Store) (ch : Changeset),
      PresMono s (commitCreatedLoop s l ch).1 := by
  induction l with
  | nil => intro s ch; exact PresMono_refl s
  | cons sk rest ih =>
      intro s ch
      rw [commitCreatedLoop]
      split
      · exact PresMono_refl s
      · exact PresMono_trans _ _ _ (PresMono_setStatus s sk _) (ih _ _)

theorem StoreWF_commitChangedLoop (l : ChangedJournal) :
    ∀ (s : Store) (kept : ChangedJournal) (ch : Changeset), StoreWF s →
      (∀ p ∈ l, s.skToType p.1 = true →
        ∃ st, s.skToStatus p.1 = some st ∧ oneCore st) →
      StoreWF (commitChangedLoop s l kept ch).1 := by
  induction l with
  | nil => intro s kept ch h _; exact h
  | cons q rest ih =>
      obtain ⟨sk, cgd⟩ := q
      intro s kept ch h hl
      rw [commitChangedLoop]
      split
      · exact h
      · split
        · exact ih _ _ _ h (fun p hp => hl p (List.mem_cons_of_mem _ hp))
        · next htype _ =>
          rw [Bool.not_eq_false] at htype
          obtain ⟨st0, hst0, hoc0⟩ :=
            hl (sk, cgd) (List.mem_cons_self _ _) htype
          have hraw : rawStatus s sk = st0 := by
            rw [rawStatus, hst0]
            rfl
          have hone : oneCore ((clearMask (rawStatus s sk) DIRTY) |||
              COMMITTING) := by
            rw [hraw]
            exact oneCore_or _ _ (oneCore_clear _ _ hoc0 (by decide))
              (by decide)
          apply ih
          · apply StoreWF_setStatus
            · exact StoreWF_step s _ (fun k => rfl) rfl (fun k => Or.inl rfl)
                (fun p hp => Or.inl hp) h
            · exact hone
          · intro p hp htp
            rw [skToType_setStatus] at htp
            by_cases hks : p.1 = sk
            · rw [hks]
              exact skToStatus_setStatus_present _ sk _ ⟨st0, hst0, hoc0⟩ hone
            · obtain ⟨st, h1, h2⟩ :=
                hl p (List.mem_cons_of_mem _ hp) htp
              refine ⟨st, ?_, h2⟩
              rw [skToStatus_setStatus]
              split
              · exact h1
              · rw [mset_ne _ _ hks]
                exact h1

theorem PresMono_commitChangedLoop (l : ChangedJournal) :
    ∀ (s : Store) (kept : ChangedJournal) (ch : Changeset),
      PresMono s (commitChangedLoop s l kept ch).1 := by
  induction l with
  | nil => intro s kept ch; exact PresMono_refl s
  | cons q rest ih =>
      obtain ⟨sk, cgd⟩ := q
      intro s kept ch
      rw [commitChangedLoop]
      split
      · exact PresMono_refl s
      · split
        · exact ih _ _ _
        · refine PresMono_trans _ _ _ ?_ (ih _ _ _)
          refine PresMono_trans _ (setStatus
            ({ s with
              skToRollback := mset s.skToRollback sk (s.skToCommitted sk)
              skToCommitted := mset s.skToCommitted sk none } : Store) sk
            ((clearMask (rawStatus s sk) DIRTY) ||| COMMITTING)) _ ?_
            (PresMono_refl _)
          exact PresMono_trans _ _ _
            ⟨fun k => rfl, rfl, fun k st h => ⟨st, h⟩⟩
            (PresMono_setStatus _ sk _)

theorem commitChangedLoop_kept (l : ChangedJournal) :
    ∀ (s : Store) (kept : ChangedJournal) (ch : Changeset),
      ∀ p ∈ (commitChangedLoop s l kept ch).2.1, p ∈ kept ∨ p ∈ l := by
  induction l with
  | nil =>
      intro s kept ch p hp
      exact Or.inl hp
  | cons q rest ih =>
      obtain ⟨sk, cgd⟩ := q
      intro s kept ch p hp
      rw [commitChangedLoop] at hp
      split at hp
      · exact Or.inl hp
      · split at hp
        · rcases ih _ _ _ p hp with h1 | h1
          · rcases List.mem_append.mp h1 with h2 | h2
            · exact Or.inl h2
            · rcases List.mem_singleton.mp h2 with h3
              exact Or.inr (h3 ▸ List.mem_cons_self _ _)
          · exact Or.inr (List.mem_cons_of_mem _ h1)
        · rcases ih _ _ _ p hp with h1 | h1
          · exact Or.inl h1
          · exact Or.inr (List.mem_cons_of_mem _ h1)

theorem StoreWF_commitDestroyedLoop (l : List Nat) :
    ∀ (s : Store) (kept : List Nat) (ch : Changeset), StoreWF s →
      StoreWF (commitDestroyedLoop s l kept ch).1 := by
  induction l with
  | nil => intro s kept ch h; exact h
  | cons sk rest ih =>
      intro s kept ch h
      rw [commitDestroyedLoop]
      split
      · exact h
      · split
        · exact ih _ _ _ h
        · exact ih _ _ _
            (StoreWF_setStatus s sk _ h (by unfold oneCore; decide))

theorem PresMono_commitDestroyedLoop (l : List Nat) :
    ∀ (s : Store) (kept : List Nat) (ch : Changeset),
      PresMono s (commitDestroyedLoop s l kept ch).1 := by
  induction l with
  | nil => intro s kept ch; exact PresMono_refl s
  | cons sk rest ih =>
      intro s kept ch
      rw [commitDestroyedLoop]
      split
      · exact PresMono_refl s
      · split
        · exact ih _ _ _
        · exact PresMono_trans _ _ _ (PresMono_setStatus s sk _) (ih _ _ _)

theorem StoreWF_journalSwap (s1 s3 : Store) (kept : ChangedJournal)
    (dkept : List Nat) (h1 : StoreWF s1) (h3 : StoreWF s3)
    (hm : PresMono s1 s3) (hk : ∀ p ∈ kept, p ∈ s1.skToChanged) :
    StoreWF { s3 with
        skToChanged := kept
        created := []
        destroyed := dkept } := by
  obtain ⟨hty, hnx, hpre⟩ := hm
  refine ⟨fun k st hst => h3.1 k st hst, fun k hk2 => h3.2.1 k hk2, ?_, ?_⟩
  · intro p hp htp
    have htp1 : s1.skToType p.1 = true := by
      rw [← hty]
      exact htp
    obtain ⟨st, hst, _⟩ := h1.2.2.1 p (hk p hp) htp1
    obtain ⟨u, hu⟩ := hpre p.1 st hst
    exact ⟨u, hu, h3.1 p.1 u hu⟩
  · intro p hp
    rcases h1.2.2.2 p (hk p hp) with ⟨st, hst, _⟩ | hlt
    · obtain ⟨u, hu⟩ := hpre p.1 st hst
      exact Or.inl ⟨u, hu, h3.1 p.1 u hu⟩
    · right
      show p.1 < s3.nextSk
      rw [hnx]
      exact hlt

theorem StoreWF_commitChanges (s : Store) (h : StoreWF s) :
    StoreWF (commitChanges s).1 := by
  have h1 := StoreWF_commitCreatedLoop s.created s emptyChangeset h
  have h2 := StoreWF_commitChangedLoop
    (commitCreatedLoop s s.created emptyChangeset).1.skToChanged
    (commitCreatedLoop s s.created emptyChangeset).1 []
    (commitCreatedLoop s s.created emptyChangeset).2.1 h1
    (fun p hp htp => h1.2.2.1 p hp htp)
  have h3 := StoreWF_commitDestroyedLoop
    (commitChangedLoop (commitCreatedLoop s s.created emptyChangeset).1
      (commitCreatedLoop s s.created emptyChangeset).1.skToChanged []
      (commitCreatedLoop s s.created emptyChangeset).2.1).1.destroyed
    (commitChangedLoop (commitCreatedLoop s s.created emptyChangeset).1
      (commitCreatedLoop s s.created emptyChangeset).1.skToChanged []
      (commitCreatedLoop s s.created emptyChangeset).2.1).1 []
    (commitChangedLoop (commitCreatedLoop s s.created emptyChangeset).1
      (commitCreatedLoop s s.created emptyChangeset).1.skToChanged []
      (commitCreatedLoop s s.created emptyChangeset).2.1).2.2.1 h2
  simp only [commitChanges]
  split
  · exact h1
  · split
    · exact h2
    · split
      · exact h3
      · refine StoreWF_journalSwap _ _ _ _ h1 h3 ?_ ?_
        · exact PresMono_trans _ _ _
            (PresMono_commitChangedLoop _ _ _ _)
            (PresMono_commitDestroyedLoop _ _ _ _)
        · intro p hp
          rcases commitChangedLoop_kept _ _ _ _ p hp with h' | h'
          · exact absurd h' (List.not_mem_nil p)
          · exact h'

theorem StoreWF_discardCreatedLoop (l : List Nat) :
    ∀ s : Store, StoreWF s → StoreWF (discardCreatedLoop s l).1 := by
  induction l with
  | nil => intro s h; exact h
  | cons sk rest ih =>
      intro s h
      have h1 : StoreWF (setStatus s sk DESTROYED) :=
        StoreWF_setStatus s sk _ h (by unfold oneCore; decide)
      simp only [discardCreatedLoop]
      split
      · exact h1
      · exact ih _ (StoreWF_unloadRecord _ sk h1)

theorem StoreWF_discardChangedLoop (l : ChangedJournal) :
    ∀ s : Store, StoreWF s → StoreWF (discardChangedLoop s l) := by
  induction l with
  | nil => intro s h; exact h
  | cons q rest ih =>
      obtain ⟨sk, cgd⟩ := q
      intro s h
      rw [discardChangedLoop]
      refine ih _ (StoreWF_setStatus _ sk _ (StoreWF_setHashClean s sk _ h) ?_)
      exact oneCore_or_masked READY _ _ (by unfold oneCore; decide) (by decide)

theorem StoreWF_discardDestroyedLoop (l : List Nat) :
    ∀ s : Store, StoreWF s → StoreWF (discardDestroyedLoop s l) := by
  induction l with
  | nil => intro s h; exact h
  | cons sk rest ih =>
      intro s h
      rw [discardDestroyedLoop]
      refine ih _ (StoreWF_setStatus _ sk _ h ?_)
      exact oneCore_or_masked READY _ _ (by unfold oneCore; decide) (by decide)

theorem StoreWF_discardChanges (s : Store) (h : StoreWF s) :
    StoreWF (discardChanges s) := by
  have h1 := StoreWF_discardCreatedLoop s.created s h
  simp only [discardChanges]
  split
  · exact h1
  · generalize (discardCreatedLoop s s.created).1 = t at h1 ⊢
    have h2 := StoreWF_discardChangedLoop t.skToChanged t h1
    generalize discardChangedLoop t t.skToChanged = u at h2 ⊢
    have h3 : StoreWF { u with
        skToChanged := ([] : ChangedJournal)
        skToCommitted := fun _ => none } := by
      refine StoreWF_step _ _ ?_ ?_ ?_ ?_ h2
      · intro k
        rfl
      · rfl
      · intro k
        exact Or.inl rfl
      · intro p hp
        exact absurd hp (List.not_mem_nil p)
    generalize hv : ({ u with
        skToChanged := ([] : ChangedJournal)
        skToCommitted := fun _ => none } : Store) = v at h3 ⊢
    have h4 := StoreWF_discardDestroyedLoop u.destroyed v h3
    refine StoreWF_step _ _ ?_ ?_ ?_ ?_ h4
    · intro k
      rfl
    · rfl
    · intro k
      exact Or.inl rfl
    · intro p hp
      exact Or.inl hp

theorem present_oneCore_of_ready (s : Store) (k : Nat) (h : StoreWF s)
    (hr : hasBits (getStatus s k) READY = true) :
    ∃ st, s.skToStatus k = some st ∧ oneCore st := by
  obtain ⟨st, hst⟩ := status_present_of_ready s k hr
  exact ⟨st, hst, h.1 k st hst⟩

theorem present_oneCore_of_rawReady (s : Store) (k : Nat) (h : StoreWF s)
    (hr : ¬hasBits (rawStatus s k) READY = false) :
    ∃ st, s.skToStatus k = some st ∧ oneCore st := by
  cases hk : s.skToStatus k with
  | some st => exact ⟨st, rfl, h.1 k st hk⟩
  | none =>
      exfalso
      apply hr
      rw [rawStatus, hk]
      decide

/-- Writing a new per-key changed map into the journal keeps the store
well-formed as long as the key's status entry is present and well-formed. -/
theorem StoreWF_asetChanged (s : Store) (sk : Nat) (v : Changed)
    (h : StoreWF s) (hpres : ∃ st, s.skToStatus sk = some st ∧ oneCore st) :
    StoreWF { s with skToChanged := aset s.skToChanged sk v } := by
  refine StoreWF_step _ _ ?_ ?_ ?_ ?_ h
  · intro k
    rfl
  · rfl
  · intro k
    exact Or.inl rfl
  · intro p hp
    rcases mem_aset _ _ _ _ hp with h1 | h1
    · right
      obtain ⟨st, hst, hoc⟩ := hpres
      refine ⟨st, ?_, hoc⟩
      show s.skToStatus p.1 = some st
      rw [h1]
      exact hst
    · exact Or.inl h1

theorem StoreWF_fetchUpdatesFinish (s : Store) (sk : Nat) (upd : Hash)
    (b : Bool) (h : StoreWF s) : StoreWF (fetchUpdatesFinish s sk upd b) := by
  have h1 : StoreWF (if b then { s with
      skToChanged := adel s.skToChanged sk
      skToCommitted := mset s.skToCommitted sk none } else s) := by
    split
    · refine StoreWF_step _ _ ?_ ?_ ?_ ?_ h
      · intro k
        rfl
      · rfl
      · intro k
        exact Or.inl rfl
      · intro p hp
        exact Or.inl (mem_adel _ _ _ hp)
    · exact h
  simp only [fetchUpdatesFinish]
  exact StoreWF_setStatus _ _ _ (StoreWF_setHashClean _ _ _ h1)
    (by unfold oneCore; decide)

theorem StoreWF_sourceDidFetchUpdates1 (s : Store) (id : Nat) (upd : Hash)
    (h : StoreWF s) : StoreWF (sourceDidFetchUpdates1 s id upd) := by
  simp only [sourceDidFetchUpdates1]
  split
  · exact h
  · next sk hsk =>
    split
    · exact h
    · next hready =>
      split
      · exact h
      · have hpres := present_oneCore_of_rawReady s sk h hready
        set upd1 := if hasBits (rawStatus s sk) COMMITTING then
            extendH ((s.skToRollback sk).getD hEmpty) upd
          else upd with hupd1def
        set s1 := if hasBits (rawStatus s sk) COMMITTING then
            { s with skToRollback := mset s.skToRollback sk none }
          else s with hs1def
        have hw1 : StoreWF s1 := by
          rw [hs1def]
          split
          · refine StoreWF_step _ _ ?_ ?_ ?_ ?_ h
            · intro k
              rfl
            · rfl
            · intro k
              exact Or.inl rfl
            · intro p hp
              exact Or.inl hp
          · exact h
        have hstat1 : s1.skToStatus = s.skToStatus := by
          rw [hs1def]
          split <;> rfl
        split
        · split
          · exact hw1
          · split
            · split
              · exact hw1
              · split
                · apply StoreWF_setStatus
                  · apply StoreWF_setHashClean
                    refine StoreWF_step s1 _ ?_ ?_ ?_ ?_ hw1
                    · intro k
                      rfl
                    · rfl
                    · intro k
                      exact Or.inl rfl
                    · intro p hp
                      rcases mem_aset _ _ _ _ hp with h1 | h1
                      · right
                        obtain ⟨st, hst, hoc⟩ := hpres
                        refine ⟨st, ?_, hoc⟩
                        show s1.skToStatus p.1 = some st
                        rw [h1, hstat1]
                        exact hst
                      · exact Or.inl h1
                  · unfold oneCore
                    decide
                · exact StoreWF_fetchUpdatesFinish _ _ _ _ hw1
            · exact StoreWF_fetchUpdatesFinish _ _ _ _ hw1
        · exact StoreWF_fetchUpdatesFinish _ _ _ _ hw1

theorem StoreWF_sourceDidFetchRecord1 (s : Store) (id : Nat) (d : Hash)
    (h : StoreWF s) : StoreWF (sourceDidFetchRecord1 s id d) := by
  have h1 : StoreWF (getStoreKeyOp s (some id)).1 :=
    StoreWF_getStoreKeyOp s _ h
  simp only [sourceDidFetchRecord1]
  split
  · exact StoreWF_sourceDidFetchUpdates1 _ _ _ h1
  · split
    · refine StoreWF_step _ _ ?_ ?_ ?_ ?_ h1
      · intro k
        rfl
      · rfl
      · intro k
        exact Or.inl rfl
      · intro p hp
        exact Or.inl hp
    · exact StoreWF_setStatus _ _ _ (StoreWF_setHashClean _ _ _ h1)
        (by unfold oneCore; decide)

theorem StoreWF_sourceHasUpdates1 (s : Store) (id : Nat) (h : StoreWF s) :
    StoreWF (sourceHasUpdates1 s id) := by
  simp only [sourceHasUpdates1]
  split
  · exact h
  · split
    · exact StoreWF_setObsolete _ _ h
    · exact h

theorem StoreWF_sourceCouldNotFind1 (s : Store) (id : Nat) (h : StoreWF s) :
    StoreWF (sourceCouldNotFind1 s id) := by
  have h1 : StoreWF (getStoreKeyOp s (some id)).1 :=
    StoreWF_getStoreKeyOp s _ h
  simp only [sourceCouldNotFind1]
  split
  · exact StoreWF_setStatus _ _ _ h1 (by unfold oneCore; decide)
  · refine StoreWF_unloadRecord _ _
      (StoreWF_setStatus _ _ _ ?_ (by unfold oneCore; decide))
    split
    · have hsa := StoreWF_setHashClean (getStoreKeyOp s (some id)).1
        (getStoreKeyOp s (some id)).2
        (((getStoreKeyOp s (some id)).1.skToCommitted
          (getStoreKeyOp s (some id)).2).getD hEmpty) h1
      refine StoreWF_step _ _ ?_ ?_ ?_ ?_ hsa
      · intro k
        rfl
      · rfl
      · intro k
        exact Or.inl rfl
      · intro p hp
        exact Or.inl (mem_adel _ _ _ hp)
    · exact h1

theorem StoreWF_sourceDidDestroy1 (s : Store) (id : Nat) (h : StoreWF s) :
    StoreWF (sourceDidDestroy1 s id) := by
  have h1 : StoreWF (getStoreKeyOp s (some id)).1 :=
    StoreWF_getStoreKeyOp s _ h
  simp only [sourceDidDestroy1]
  refine StoreWF_unloadRecord _ _
    (StoreWF_setStatus _ _ _ ?_ (by unfold oneCore; decide))
  split
  · have hsa := StoreWF_setHashClean (getStoreKeyOp s (some id)).1
      (getStoreKeyOp s (some id)).2
      (((getStoreKeyOp s (some id)).1.skToCommitted
        (getStoreKeyOp s (some id)).2).getD hEmpty) h1
    refine StoreWF_step _ _ ?_ ?_ ?_ ?_ hsa
    · intro k
      rfl
    · rfl
    · intro k
      exact Or.inl rfl
    · intro p hp
      exact Or.inl (mem_adel _ _ _ hp)
  · exact h1

theorem StoreWF_sourceDidCommitCreate1 (s : Store) (sk id : Nat)
    (h : StoreWF s) : StoreWF (sourceDidCommitCreate1 s sk id) := by
  simp only [sourceDidCommitCreate1]
  split
  · split
    · exact h
    · refine StoreWF_setStatus _ _ _ (StoreWF_setIdForStoreKey _ _ _ h) ?_
      exact oneCore_clear _ _ (oneCore_getStatus s h.1 sk) (by decide)
  · refine StoreWF_step _ _ ?_ ?_ ?_ ?_ h
    · intro k
      rfl
    · rfl
    · intro k
      exact Or.inl rfl
    · intro p hp
      exact Or.inl hp

theorem StoreWF_sourceDidNotCreate1 (s : Store) (sk : Nat) (h : StoreWF s) :
    StoreWF (sourceDidNotCreate1 s sk) := by
  simp only [sourceDidNotCreate1]
  split
  · exact StoreWF_unloadRecord _ _
      (StoreWF_setStatus _ _ _ h (by unfold oneCore; decide))
  · have hw1 : StoreWF (if hasBits (getStatus s sk) DIRTY then
        { s with
          skToCommitted := mset s.skToCommitted sk none
          skToChanged := adel s.skToChanged sk }
      else s) := by
      split
      · refine StoreWF_step _ _ ?_ ?_ ?_ ?_ h
        · intro k
          rfl
        · rfl
        · intro k
          exact Or.inl rfl
        · intro p hp
          exact Or.inl (mem_adel _ _ _ hp)
      · exact h
    refine StoreWF_step _ _ ?_ ?_ ?_ ?_
      (StoreWF_setStatus _ sk (READY ||| NEW) hw1 (by unfold oneCore; decide))
    · intro k
      rfl
    · rfl
    · intro k
      exact Or.inl rfl
    · intro p hp
      exact Or.inl hp

theorem StoreWF_sourceDidCommitUpdate1 (s : Store) (sk : Nat)
    (h : StoreWF s) : StoreWF (sourceDidCommitUpdate1 s sk) := by
  simp only [sourceDidCommitUpdate1]
  have hw1 : StoreWF { s with
      skToRollback := mset s.skToRollback sk none } := by
    refine StoreWF_step _ _ ?_ ?_ ?_ ?_ h
    · intro k
      rfl
    · rfl
    · intro k
      exact Or.inl rfl
    · intro p hp
      exact Or.inl hp
  split
  · exact hw1
  · split
    · exact StoreWF_setObsolete _ _ hw1
    · refine StoreWF_setStatus _ _ _ hw1 ?_
      exact oneCore_clear _ _ (oneCore_getStatus s h.1 sk) (by decide)

theorem StoreWF_sourceDidNotUpdate1 (s : Store) (sk : Nat) (h : StoreWF s) :
    StoreWF (sourceDidNotUpdate1 s sk) := by
  simp only [sourceDidNotUpdate1]
  split
  · exact h
  · next hready =>
    rw [Bool.not_eq_false] at hready
    have hpres := present_oneCore_of_ready s sk h hready
    have hw1 : StoreWF { s with
        skToCommitted := mset s.skToCommitted sk (s.skToRollback sk)
        skToRollback := mset s.skToRollback sk none } := by
      refine StoreWF_step _ _ ?_ ?_ ?_ ?_ h
      · intro k
        rfl
      · rfl
      · intro k
        exact Or.inl rfl
      · intro p hp
        exact Or.inl hp
    split
    · exact hw1
    · split
      · refine StoreWF_setObsolete _ _ ?_
        split
        · exact StoreWF_asetChanged _ _ _ hw1 hpres
        · exact hw1
      · refine StoreWF_setStatus _ _ _ ?_ ?_
        · split
          · exact StoreWF_asetChanged _ _ _ hw1 hpres
          · exact hw1
        · exact oneCore_or _ _
            (oneCore_clear _ _ (oneCore_getStatus s h.1 sk) (by decide))
            (by decide)

theorem StoreWF_sourceDidCommitDestroy1 (s : Store) (sk : Nat)
    (h : StoreWF s) : StoreWF (sourceDidCommitDestroy1 s sk) := by
  simp only [sourceDidCommitDestroy1]
  refine StoreWF_unloadRecord _ _
    (StoreWF_setStatus _ _ _ ?_ (by unfold oneCore; decide))
  split
  · refine StoreWF_step _ _ ?_ ?_ ?_ ?_ h
    · intro k
      rfl
    · rfl
    · intro k
      exact Or.inl rfl
    · intro p hp
      exact Or.inl hp
  · exact h

theorem StoreWF_sourceDidNotDestroy1 (s : Store) (sk : Nat) (h : StoreWF s) :
    StoreWF (sourceDidNotDestroy1 s sk) := by
  simp only [sourceDidNotDestroy1]
  have hw1 : StoreWF (if hasBits (getStatus s sk) DESTROYED = false then
      { s with log := s.log ++ [SOURCE_COMMIT_DESTROY_MISMATCH_ERROR] }
    else s) := by
    split
    · refine StoreWF_step _ _ ?_ ?_ ?_ ?_ h
      · intro k
        rfl
      · rfl
      · intro k
        exact Or.inl rfl
      · intro p hp
        exact Or.inl hp
    · exact h
  refine StoreWF_step _ _ ?_ ?_ ?_ ?_
    (StoreWF_setStatus _ sk (DESTROYED ||| DIRTY) hw1
      (by unfold oneCore; decide))
  · intro k
    rfl
  · rfl
  · intro k
    exact Or.inl rfl
  · intro p hp
    exact Or.inl hp

theorem StoreWF_sourceDidError1 (s : Store) (sk : Nat) (h : StoreWF s) :
    StoreWF (sourceDidError1 s sk) := by
  simp only [sourceDidError1]
  split
  · exact StoreWF_unloadRecord _ _
      (StoreWF_setStatus _ _ _ h (by unfold oneCore; decide))
  · refine StoreWF_setStatus _ _ _ ?_ (by unfold oneCore; decide)
    have hsa := StoreWF_setHashClean s sk
      ((s.skToRollback sk).getD hEmpty) h
    refine StoreWF_step _ _ ?_ ?_ ?_ ?_ hsa
    · intro k
      rfl
    · rfl
    · intro k
      exact Or.inl rfl
    · intro p hp
      exact Or.inl (mem_adel _ _ _ hp)

theorem StoreWF_foldl {α : Type} (f : Store → α → Store)
    (hf : ∀ t a, StoreWF t → StoreWF (f t a)) (l : List α) :
    ∀ s : Store, StoreWF s → StoreWF (l.foldl f s) := by
  induction l with
  | nil => intro s h; exact h
  | cons a rest ih =>
      intro s h
      exact ih _ (hf s a h)

theorem StoreWF_sourceDidFetchUpdatesList (s : Store)
    (upds : List (Nat × Hash)) (h : StoreWF s) :
    StoreWF (sourceDidFetchUpdatesList s upds) :=
  StoreWF_foldl _ (fun t p ht => StoreWF_sourceDidFetchUpdates1 t p.1 p.2 ht)
    upds s h

theorem StoreWF_sourceDidCommitUpdateList (s : Store) (sks : List Nat)
    (h : StoreWF s) : StoreWF (sourceDidCommitUpdateList s sks) :=
  StoreWF_foldl _ (fun t a ht => StoreWF_sourceDidCommitUpdate1 t a ht)
    sks s h

theorem StoreWF_sourceDidNotUpdateList (s : Store) (sks : List Nat)
    (h : StoreWF s) : StoreWF (sourceDidNotUpdateList s sks) :=
  StoreWF_foldl _ (fun t a ht => StoreWF_sourceDidNotUpdate1 t a ht) sks s h

/-! ## Reachable states and the one-core-bit invariant (claim C5) -/

/-- One externally triggered operation of the store: the client API, the
commit pipeline and every source callback of the reconciliation engine. -/
inductive Op where
  | opGetStoreKey (id : Option Nat)
  | opCreateRecord (sk : Nat) (d : Hash)
  | opDestroyRecord (sk : Nat)
  | opFetchHash (sk : Nat)
  | opUpdateHash (sk : Nat) (p : Hash) (b : Bool)
  | opRevertHash (sk : Nat)
  | opUnloadRecord (sk : Nat)
  | opSetIdForStoreKey (sk id : Nat)
  | opSetDirty (sk : Nat)
  | opSetLoading (sk : Nat)
  | opSetCommitting (sk : Nat)
  | opSetObsolete (sk : Nat)
  | opCommitChanges
  | opDiscardChanges
  | opSourceDidFetchRecord (id : Nat) (d : Hash)
  | opSourceDidFetchUpdates (upds : List (Nat × Hash))
  | opSourceHasUpdates (id : Nat)
  | opSourceCouldNotFind (id : Nat)
  | opSourceDidDestroy (id : Nat)
  | opSourceDidCommitCreate (sk id : Nat)
  | opSourceDidNotCreate (sk : Nat)
  | opSourceDidCommitUpdate (sks : List Nat)
  | opSourceDidNotUpdate (sks : List Nat)
  | opSourceDidCommitDestroy (sk : Nat)
  | opSourceDidNotDestroy (sk : Nat)
  | opSourceDidError (sk : Nat)

def applyOp (s : Store) : Op → Store
  | .opGetStoreKey id => (getStoreKeyOp s id).1
  | .opCreateRecord sk d => createRecord s sk d
  | .opDestroyRecord sk => destroyRecord s sk
  | .opFetchHash sk => fetchHash s sk
  | .opUpdateHash sk p b => (updateHash s sk p b).1
  | .opRevertHash sk => revertHash s sk
  | .opUnloadRecord sk => (unloadRecord s sk).1
  | .opSetIdForStoreKey sk id => setIdForStoreKey s sk id
  | .opSetDirty sk => setDirty s sk
  | .opSetLoading sk => setLoading s sk
  | .opSetCommitting sk => setCommitting s sk
  | .opSetObsolete sk => setObsolete s sk
  | .opCommitChanges => (commitChanges s).1
  | .opDiscardChanges => discardChanges s
  | .opSourceDidFetchRecord id d => sourceDidFetchRecord1 s id d
  | .opSourceDidFetchUpdates upds => sourceDidFetchUpdatesList s upds
  | .opSourceHasUpdates id => sourceHasUpdates1 s id
  | .opSourceCouldNotFind id => sourceCouldNotFind1 s id
  | .opSourceDidDestroy id => sourceDidDestroy1 s id
  | .opSourceDidCommitCreate sk id => sourceDidCommitCreate1 s sk id
  | .opSourceDidNotCreate sk => sourceDidNotCreate1 s sk
  | .opSourceDidCommitUpdate sks => sourceDidCommitUpdateList s sks
  | .opSourceDidNotUpdate sks => sourceDidNotUpdateList s sks
  | .opSourceDidCommitDestroy sk => sourceDidCommitDestroy1 s sk
  | .opSourceDidNotDestroy sk => sourceDidNotDestroy1 s sk
  | .opSourceDidError sk => sourceDidError1 s sk

/-- A store state is reachable when it arises from a freshly constructed
store by any sequence of operations. -/
inductive Reachable : Store → Prop where
  | init (ac rb : Bool) : Reachable (initStore ac rb)
  | step {s : Store} (op : Op) (h : Reachable s) : Reachable (applyOp s op)

theorem StoreWF_initStore (ac rb : Bool) : StoreWF (initStore ac rb) := by
  refine ⟨?_, ?_, ?_, ?_⟩
  · intro k st hst
    exact absurd hst (by simp [initStore])
  · intro k hk
    exact absurd hk (by simp [initStore])
  · intro p hp
    exact absurd hp (List.not_mem_nil p)
  · intro p hp
    exact absurd hp (List.not_mem_nil p)

theorem StoreWF_applyOp (s : Store) (op : Op) (h : StoreWF s) :
    StoreWF (applyOp s op) := by
  cases op with
  | opGetStoreKey id => exact StoreWF_getStoreKeyOp s id h
  | opCreateRecord sk d => exact StoreWF_createRecord s sk d h
  | opDestroyRecord sk => exact StoreWF_destroyRecord s sk h
  | opFetchHash sk => exact StoreWF_fetchHash s sk h
  | opUpdateHash sk p b => exact StoreWF_updateHash s sk p b h
  | opRevertHash sk => exact StoreWF_revertHash s sk h
  | opUnloadRecord sk => exact StoreWF_unloadRecord s sk h
  | opSetIdForStoreKey sk id => exact StoreWF_setIdForStoreKey s sk id h
  | opSetDirty sk => exact StoreWF_setDirty s sk h
  | opSetLoading sk => exact StoreWF_setLoading s sk h
  | opSetCommitting sk => exact StoreWF_setCommitting s sk h
  | opSetObsolete sk => exact StoreWF_setObsolete s sk h
  | opCommitChanges => exact StoreWF_commitChanges s h
  | opDiscardChanges => exact StoreWF_discardChanges s h
  | opSourceDidFetchRecord id d =>
      exact StoreWF_sourceDidFetchRecord1 s id d h
  | opSourceDidFetchUpdates upds =>
      exact StoreWF_sourceDidFetchUpdatesList s upds h
  | opSourceHasUpdates id => exact StoreWF_sourceHasUpdates1 s id h
  | opSourceCouldNotFind id => exact StoreWF_sourceCouldNotFind1 s id h
  | opSourceDidDestroy id => exact StoreWF_sourceDidDestroy1 s id h
  | opSourceDidCommitCreate sk id =>
      exact StoreWF_sourceDidCommitCreate1 s sk id h
  | opSourceDidNotCreate sk => exact StoreWF_sourceDidNotCreate1 s sk h
  | opSourceDidCommitUpdate sks =>
      exact StoreWF_sourceDidCommitUpdateList s sks h
  | opSourceDidNotUpdate sks =>
      exact StoreWF_sourceDidNotUpdateList s sks h
  | opSourceDidCommitDestroy sk =>
      exact StoreWF_sourceDidCommitDestroy1 s sk h
  | opSourceDidNotDestroy sk => exact StoreWF_sourceDidNotDestroy1 s sk h
  | opSourceDidError sk => exact StoreWF_sourceDidError1 s sk h

theorem StoreWF_reachable {s : Store} (h : Reachable s) : StoreWF s := by
  induction h with
  | init ac rb => exact StoreWF_initStore ac rb
  | step op _ ih => exact StoreWF_applyOp _ op ih

/-- C5: for every store key of every reachable store state the status read
through `getStatus` has exactly one of the core-state bits `EMPTY`, `READY`,
`DESTROYED`, `NON_EXISTENT` set (`oneCore` enumerates the four admissible
values of the low nibble), and every operation of the store — client API,
commit pipeline and all source callbacks, as collected in `Op` — preserves
this. -/
theorem C5_one_core_status_invariant (s : Store) (h : Reachable s) :
    (∀ sk, oneCore (getStatus s sk)) ∧
      ∀ op : Op, ∀ sk, oneCore (getStatus (applyOp s op) sk) := by
  have hw := StoreWF_reachable h
  refine ⟨fun sk => oneCore_getStatus s hw.1 sk, fun op sk => ?_⟩
  exact oneCore_getStatus _ (StoreWF_applyOp s op hw).1 sk

/-- C5 witness: the invariant theorem applied to the store reached by
creating one record in a fresh store. -/
theorem C5_witness :
    (∀ sk, oneCore (getStatus (applyOp (initStore false false)
        (Op.opCreateRecord 1 hEmpty)) sk)) ∧
      ∀ op : Op, ∀ sk, oneCore (getStatus (applyOp (applyOp
        (initStore false false) (Op.opCreateRecord 1 hEmpty)) op) sk) :=
  C5_one_core_status_invariant _
    (Reachable.step (Op.opCreateRecord 1 hEmpty) (Reachable.init false false))
